import Mathlib

/-!
Verification of the order-split fulfillment system (src/function.py).

The Python source is shallowly embedded below.  Remote effects (the Shopify
GraphQL calls made through `send_request_with_retry`) are modelled by an
explicit environment of pending responses that the orchestrator consumes in
call order; `json.loads` is modelled by attaching the parse outcome to the
raw metafield value, since the JSON library is external to this repository.
-/

namespace OrderSplit

/-- The home warehouse name, `"Rooftopshop Magazijn"` in the source. -/
def homeName : String := "Rooftopshop Magazijn"

/-! ## Python values (for the fetcher/normalizer layer)

`json.loads` can produce arbitrary Python values; the normalization code at
src/function.py lines 130-138 branches on `isinstance(..., list)` and on
truthiness, so we model the value universe and Python truthiness. -/

inductive PyValue where
  | null : PyValue
  | bool (b : Bool) : PyValue
  | num (n : Int) : PyValue
  | str (s : String) : PyValue
  | list (l : List PyValue) : PyValue

/-- Python truthiness of a value (`if available_locations else []`). -/
def truthyPy : PyValue → Bool
  | .null => false
  | .bool b => b
  | .num n => n != 0
  | .str s => s != ""
  | .list l => !l.isEmpty

/-- Outcome of running a piece of Python code: a value, or a raised exception. -/
inductive PyOutcome (α : Type) where
  | ok (val : α) : PyOutcome α
  | raised (msg : String) : PyOutcome α
deriving DecidableEq, Repr

/-! ## Resilient call executor (`send_request_with_retry`, lines 23-49)

An attempt either raises a `requests` exception or returns an HTTP status
code with a parsed JSON body.  Sleeps are returned as a trace, in
milliseconds (the source sleeps `0.5` seconds after a success and
`delay * (attempt + 1)` seconds between failed attempts; we scale the
`delay` parameter to milliseconds, default 2000). -/

structure RawResponse where
  /-- Presence of the top-level `errors` key in the JSON body
  (`'errors' in result` is a key-membership test, lines 33 and 92). -/
  errors : Option (List String)
  /-- `result.get('data', {}).get('fulfillmentOrder')`, collapsed: `none`
  when either level is absent or null. -/
  fulfillmentOrder : Option PyValue

inductive AttemptOutcome where
  | exn (msg : String) : AttemptOutcome
  | httpStatus (code : Nat) (body : RawResponse) : AttemptOutcome

/-- Whether an attempt came back with HTTP status 200. -/
def is200 : AttemptOutcome → Bool
  | .httpStatus code _ => code == 200
  | .exn _ => false

/-- The retry loop of `send_request_with_retry`, from a given attempt index.
Returns the result together with the list of sleep durations performed
(milliseconds). -/
def send_request_attempts (responses : Nat → AttemptOutcome)
    (max_retries delay attempt : Nat) : Option RawResponse × List Nat :=
  if attempt < max_retries then
    match responses attempt with
    | .httpStatus code body =>
      if code = 200 then
        -- small delay even after successful requests (0.5s), then return
        (some body, [500])
      else
        let rest := send_request_attempts responses max_retries delay (attempt + 1)
        (rest.1, (if attempt < max_retries - 1 then [delay * (attempt + 1)] else []) ++ rest.2)
    | .exn _ =>
      let rest := send_request_attempts responses max_retries delay (attempt + 1)
      (rest.1, (if attempt < max_retries - 1 then [delay * (attempt + 1)] else []) ++ rest.2)
  else
    (none, [])
termination_by max_retries - attempt
decreasing_by all_goals omega

/-- `send_request_with_retry(query, max_retries=3, delay=2)`; `delay` here in
milliseconds (source default 2s = 2000). -/
def send_request_with_retry (responses : Nat → AttemptOutcome)
    (max_retries delay : Nat) : Option RawResponse × List Nat :=
  send_request_attempts responses max_retries delay 0

/-! ## Order detail fetcher/normalizer (`get_fulfillment_order_details`, lines 52-165) -/

structure RMetafield where
  key : String
  value : String
  /-- Outcome of `json.loads(value)`: `none` models a raised parse exception.
  The JSON library is external, so its outcome is data of the model. -/
  parsedValue : Option PyValue

structure RLineItem where
  id : String
  name : String
  sku : String
  quantity : Nat
  /-- `lineItem['variant']['metafields']['nodes']`; `none` when any level is null. -/
  metafieldNodes : Option (List RMetafield)

structure REdge where
  /-- `node['id']`, the fulfillment-order line item id. -/
  nodeId : String
  lineItem : RLineItem

structure RFulfillmentOrder where
  status : String
  edges : List REdge

/-- The executor's JSON body as seen by the fetcher. -/
structure RResponse where
  errors : Option (List String)
  fulfillmentOrder : Option RFulfillmentOrder

/-- Python truthiness of the response dict, modelled on its two relevant keys
(an empty dict is falsy). -/
def truthyResponse (r : RResponse) : Bool :=
  r.errors.isSome || r.fulfillmentOrder.isSome

structure RParsedItem where
  fulfillment_order_line_item_id : String
  line_item_id : String
  name : String
  sku : String
  quantity : Nat
  available_locations : List PyValue
  is_length_transport : Bool
  is_daktrim_koppelstukje : Bool

structure RParsedData where
  fulfillment_order_id : String
  status : String
  line_items : List RParsedItem

/-- Accumulator for the per-item metafield loop (lines 118-152). -/
structure MetaAcc where
  available_locations : List PyValue
  is_length_transport : Bool
  is_daktrim_koppelstukje : Bool

/-- One iteration of the metafield loop (lines 126-152).  For
`availability_location`: `json.loads`, then the non-list fallback
`[v] if v else []`; a parse exception sets the empty list.  The two boolean
flags compare `value.lower()` with `"true"`; `value` is a string in the
response model, so `.lower()` cannot raise. -/
def applyMetafield (acc : MetaAcc) (m : RMetafield) : MetaAcc :=
  if m.key = "availability_location" then
    match m.parsedValue with
    | none => { acc with available_locations := [] }
    | some v =>
      match v with
      | .list l => { acc with available_locations := l }
      | v => { acc with available_locations := if truthyPy v then [v] else [] }
  else if m.key = "length_transport" then
    { acc with is_length_transport := m.value.toLower = "true" }
  else if m.key = "daktrim_koppelstukje" then
    { acc with is_daktrim_koppelstukje := m.value.toLower = "true" }
  else acc

/-- Normalization of one line-item edge (lines 114-163). -/
def parseLineItem (e : REdge) : RParsedItem :=
  let acc0 : MetaAcc := ⟨[], false, false⟩
  let acc :=
    match e.lineItem.metafieldNodes with
    | some nodes => if nodes.isEmpty then acc0 else nodes.foldl applyMetafield acc0
    | none => acc0
  ⟨e.nodeId, e.lineItem.id, e.lineItem.name, e.lineItem.sku, e.lineItem.quantity,
   acc.available_locations, acc.is_length_transport, acc.is_daktrim_koppelstukje⟩

/-- `get_fulfillment_order_details`, applied to the executor's result.  The
guard at line 92 short-circuits (`not result or 'errors' in result or ...`),
but the log branch at line 93 then evaluates `'errors' in result`
unconditionally, which raises `TypeError` when `result` is `None`. -/
def get_fulfillment_order_details (fulfillment_order_id : String)
    (result : Option RResponse) : PyOutcome (Option RParsedData) :=
  match result with
  | none =>
    -- line 93: `if 'errors' in result:` with result = None
    .raised "TypeError: argument of type NoneType is not iterable"
  | some r =>
    if !truthyResponse r || r.errors.isSome || r.fulfillmentOrder.isNone then
      .ok none
    else
      match r.fulfillmentOrder with
      | some fo => .ok (some ⟨fulfillment_order_id, fo.status, fo.edges.map parseLineItem⟩)
      | none => .ok none

/-! ## Item classifier (`categorize_items`, lines 167-264)

The classifier layer works on normalized line items whose locations are
strings (the JSON metafield lists hold location names). -/

structure LineItem where
  fulfillment_order_line_item_id : String
  line_item_id : String
  name : String
  sku : String
  quantity : Nat
  available_locations : List String
  is_length_transport : Bool
  is_daktrim_koppelstukje : Bool
deriving DecidableEq, Repr

structure OrderDetails where
  fulfillment_order_id : String
  status : String
  line_items : List LineItem
deriving DecidableEq, Repr

/-- The `item_details` dictionaries placed into buckets (lines 220-226). -/
structure ItemDetails where
  id : String
  quantity : Nat
  locations : List String
  is_length_transport : Bool
  is_daktrim_koppelstukje : Bool
deriving DecidableEq, Repr

def toItemDetails (item : LineItem) : ItemDetails :=
  ⟨item.fulfillment_order_line_item_id, item.quantity, item.available_locations,
   item.is_length_transport, item.is_daktrim_koppelstukje⟩

/-- The five buckets of `categorize_items` (the summary entries are derived
from the buckets below, exactly as the source computes them at lines 246-252;
the orchestrator recomputes the external-location set itself at lines
492-496). -/
structure Categories where
  length_rooftopshop : List ItemDetails
  non_length_rooftopshop : List ItemDetails
  length_external : List ItemDetails
  non_length_external : List ItemDetails
  daktrim_koppelstukje_rooftopshop : List ItemDetails
deriving DecidableEq, Repr

def emptyCategories : Categories := ⟨[], [], [], [], []⟩

/-- Body of the categorization loop (lines 189-243).  The input items are
already normalized, so the `isinstance` re-checks on lines 192-217 are
identities here. -/
def categorizeStep (acc : Categories) (item : LineItem) : Categories :=
  let d := toItemDetails item
  if item.is_daktrim_koppelstukje ∧ homeName ∈ item.available_locations then
    { acc with daktrim_koppelstukje_rooftopshop := acc.daktrim_koppelstukje_rooftopshop ++ [d] }
  else if item.is_length_transport then
    if homeName ∈ item.available_locations then
      { acc with length_rooftopshop := acc.length_rooftopshop ++ [d] }
    else
      { acc with length_external := acc.length_external ++ [d] }
  else
    if homeName ∈ item.available_locations then
      { acc with non_length_rooftopshop := acc.non_length_rooftopshop ++ [d] }
    else
      { acc with non_length_external := acc.non_length_external ++ [d] }

def categorize_items (o : OrderDetails) : Categories :=
  o.line_items.foldl categorizeStep emptyCategories

/-- `summary['has_length_items']` (line 247). -/
def hasLengthItems (c : Categories) : Bool :=
  decide (0 < c.length_rooftopshop.length + c.length_external.length)

/-- `summary['all_items_at_rooftopshop']` (line 249). -/
def allItemsAtRooftopshop (c : Categories) : Bool :=
  decide (c.length_external.length + c.non_length_external.length = 0)

/-- `summary['all_non_length_at_rooftopshop']` (line 250). -/
def allNonLengthAtRooftopshop (c : Categories) : Bool :=
  decide (c.non_length_external.length = 0)

/-! ## Location grouper (`group_by_external_location`, lines 266-301, and the
inline copies inside the orchestrator at lines 589-651 and 735-765)

Python's insertion-ordered `dict` of location → items is modelled by an
association list in insertion order (the orchestrator iterates
`location_groups.items()` in that order). -/

/-- The `{id, quantity}` pairs forwarded to the split mutation. -/
structure SplitItem where
  id : String
  quantity : Nat
deriving DecidableEq, Repr

abbrev LocationGroups := List (String × List SplitItem)

def groupsLookup (g : LocationGroups) (loc : String) : Option (List SplitItem) :=
  match g with
  | [] => none
  | (l, items) :: t => if l = loc then some items else groupsLookup t loc

/-- `location_groups[location].append(entry)`, creating the key on first use. -/
def addToGroup (g : LocationGroups) (loc : String) (e : SplitItem) : LocationGroups :=
  match g with
  | [] => [(loc, [e])]
  | (l, items) :: t =>
    if l = loc then (l, items ++ [e]) :: t else (l, items) :: addToGroup t loc e

/-- First location in list order that is not the home warehouse (the inner
`for location in locations: if location != "Rooftopshop Magazijn": ... break`). -/
def firstExternalLocation (locs : List String) : Option String :=
  locs.find? (fun loc => loc != homeName)

/-- `group_by_external_location` (lines 266-301).  An item with an empty
location list skips the inner loop (`if item.get('locations'):`) and an item
with only home locations finds no match; both end up unassigned and are filed
under `"unknown"`. -/
def groupByStep (groups : LocationGroups) (item : ItemDetails) : LocationGroups :=
  match firstExternalLocation item.locations with
  | some loc => addToGroup groups loc ⟨item.id, item.quantity⟩
  | none => addToGroup groups "unknown" ⟨item.id, item.quantity⟩

def group_by_external_location (items : List ItemDetails) : LocationGroups :=
  items.foldl groupByStep []

/-- `remaining_line_items[item['id']]` built by dict comprehension (lines 583,
697, 728): on duplicate ids the last entry wins. -/
def lookupLineItem (line_items : List LineItem) (id : String) : Option LineItem :=
  line_items.reverse.find? (fun li => li.fulfillment_order_line_item_id == id)

/-- One iteration of the orchestrator's inline grouping (lines 590-619,
622-651, 735-765): skip items no longer in the remaining snapshot, take the
snapshot's `available_locations`, assign to the first non-home location, and
only fall back to `"unknown"` when the location list is non-empty
(`if not assigned and locations:`). -/
def addExternalItem (remaining : List LineItem) (groups : LocationGroups)
    (item : ItemDetails) : LocationGroups :=
  match lookupLineItem remaining item.id with
  | none => groups
  | some li =>
    match firstExternalLocation li.available_locations with
    | some loc => addToGroup groups loc ⟨item.id, item.quantity⟩
    | none =>
      if li.available_locations.isEmpty then groups
      else addToGroup groups "unknown" ⟨item.id, item.quantity⟩

def buildGroupsFromBucket (remaining : List LineItem) (groups : LocationGroups)
    (bucket : List ItemDetails) : LocationGroups :=
  bucket.foldl (addExternalItem remaining) groups

/-! ## Split/tag orchestrator
(`process_fulfillment_according_to_decision_tree`, lines 471-819)

Remote calls are modelled by an environment of pending responses, consumed in
call order.  A split call so consumes the head of `splitResponses`
(`split_fulfillment_order` returns a pair of optional new order id and
status-or-error message); `add_tag_to_order`'s outcome is the head of
`tagResponses`; `get_fulfillment_order_details` re-fetches return the head of
`fetches`.  Every split call is also logged with the line items it sent, so
that statements can range over all issued split mutations, including failed
ones.  An exhausted stream behaves like a remote that never answers. -/

structure SplitRecord where
  type : String
  fulfillment_order_id : String
  status : String
  items : List SplitItem
  location : Option String
deriving DecidableEq, Repr

structure Results where
  success : Bool
  splits : List SplitRecord
  tags_added : List String
  error : Option String
deriving DecidableEq, Repr

structure Env where
  fetches : List (Option OrderDetails)
  splitResponses : List (Option String × String)
  tagResponses : List Bool
  splitLog : List (List SplitItem)
deriving DecidableEq, Repr

def takeFetch (env : Env) : Option OrderDetails × Env :=
  match env.fetches with
  | [] => (none, env)
  | r :: rest => (r, { env with fetches := rest })

def takeSplit (items : List SplitItem) (env : Env) : (Option String × String) × Env :=
  match env.splitResponses with
  | [] => ((none, "No response from Shopify API"), { env with splitLog := env.splitLog ++ [items] })
  | r :: rest => (r, { env with splitResponses := rest, splitLog := env.splitLog ++ [items] })

def takeTag (env : Env) : Bool × Env :=
  match env.tagResponses with
  | [] => (false, env)
  | r :: rest => (r, { env with tagResponses := rest })

/-- `if order_id and add_tag_to_order(order_id, tag)`: a falsy `order_id`
(`None` or the empty string) short-circuits and no remote call is made. -/
def callAddTag (order_id : Option String) (env : Env) : Bool × Env :=
  match order_id with
  | none => (false, env)
  | some s => if s = "" then (false, env) else takeTag env

/-- `get_location_tag` (lines 457-468). -/
def get_location_tag (location : String) : String :=
  if location = "Compri Aluminium" then "compriFulfillment"
  else if location = "Redfox EPDM" then "redfoxFulfillment"
  else location ++ "Fulfillment"

/-- The external-locations set built by the orchestrator's pre-step (lines
492-496), modelled as an insertion-ordered deduplicated list; with exactly
one element, `next(iter(...))` is that element. -/
def collectExternalLocations (c : Categories) : List String :=
  (c.length_external ++ c.non_length_external).foldl
    (fun acc item =>
      item.locations.foldl
        (fun acc loc =>
          if loc = homeName then acc
          else if loc ∈ acc then acc else acc ++ [loc])
        acc)
    []

/-- First half of the pre-step tagging (lines 484-487): the
`daktrimFulfillment` tag when there are length items and none external. -/
def preStepDaktrim (order_id : Option String) (c : Categories) (res : Results) (env : Env) :
    Results × Env :=
  if hasLengthItems c ∧ c.length_external.length = 0 then
    let r := callAddTag order_id env
    (if r.1 then { res with tags_added := res.tags_added ++ ["daktrimFulfillment"] } else res,
     r.2)
  else (res, env)

/-- Second half of the pre-step tagging (lines 489-506): the
single-external-location tag when no items are at home. -/
def preStepExternal (order_id : Option String) (c : Categories) (res : Results) (env : Env) :
    Results × Env :=
  if 0 < c.length_external.length ∨ 0 < c.non_length_external.length then
    match collectExternalLocations c with
    | [loc] =>
      if c.length_rooftopshop.length + c.non_length_rooftopshop.length
          + c.daktrim_koppelstukje_rooftopshop.length = 0 then
        let tag := get_location_tag loc
        let r := callAddTag order_id env
        (if r.1 then { res with tags_added := res.tags_added ++ [tag] } else res, r.2)
      else (res, env)
    | _ => (res, env)
  else (res, env)

/-- Pre-step tagging (lines 482-506). -/
def preStep (order_id : Option String) (c : Categories) (res : Results) (env : Env) :
    Results × Env :=
  let p := preStepDaktrim order_id c res env
  preStepExternal order_id c p.1 p.2

/-- The loop over location groups in branch A (lines 657-703): split, record,
tag, re-fetch; a failed split or a failed re-fetch returns immediately with
the accumulated partial result. -/
def processGroupsA (order_id : Option String) (groups : LocationGroups)
    (res : Results) (env : Env) : Results × Env :=
  match groups with
  | [] => (res, env)
  | (location, items) :: rest =>
    if items.isEmpty then processGroupsA order_id rest res env
    else
      let s := takeSplit items env
      match s.1.1 with
      | some new_id =>
        let res1 := { res with
          splits := res.splits ++ [⟨"external_" ++ location, new_id, s.1.2, items, some location⟩] }
        let t := callAddTag order_id s.2
        let res2 :=
          if t.1 then { res1 with tags_added := res1.tags_added ++ [get_location_tag location] }
          else res1
        let f := takeFetch t.2
        match f.1 with
        | none =>
          ({ res2 with
              success := false
              error := some ("Failed to get updated fulfillment order details after splitting items at " ++ location) },
           f.2)
        | some _ => processGroupsA order_id rest res2 f.2
      | none =>
        ({ res with
            success := false
            error := some ("Failed to split items for " ++ location ++ ": " ++ s.1.2) },
         s.2)

/-- The loop over location groups in branch B (lines 771-817).  The source
uses `break` instead of `return` on a split failure, but the loop ends either
way and falls through to `return results`, so the shape is the same. -/
def processGroupsB (order_id : Option String) (groups : LocationGroups)
    (res : Results) (env : Env) : Results × Env :=
  match groups with
  | [] => (res, env)
  | (location, items) :: rest =>
    if items.isEmpty then processGroupsB order_id rest res env
    else
      let s := takeSplit items env
      match s.1.1 with
      | some new_id =>
        let res1 := { res with
          splits := res.splits ++ [⟨"external_" ++ location, new_id, s.1.2, items, some location⟩] }
        let t := callAddTag order_id s.2
        let res2 :=
          if t.1 then { res1 with tags_added := res1.tags_added ++ [get_location_tag location] }
          else res1
        let f := takeFetch t.2
        match f.1 with
        | none =>
          ({ res2 with
              success := false
              error := some ("Failed to get updated fulfillment order details after splitting non-length items at " ++ location) },
           f.2)
        | some _ => processGroupsB order_id rest res2 f.2
      | none =>
        ({ res with
            success := false
            error := some ("Failed to split non-length items for " ++ location ++ ": " ++ s.1.2) },
         s.2)

/-- Branch A step 2 (lines 570-703): grouping of the external items, re-filtered
against the remaining-items snapshot, then the location-group loop. -/
def branchAStep2Go (order_id : Option String) (c : Categories) (d : OrderDetails)
    (res : Results) (env : Env) : Results × Env :=
  let remaining := d.line_items
  let groups :=
    buildGroupsFromBucket remaining
      (buildGroupsFromBucket remaining [] c.length_external)
      c.non_length_external
  processGroupsA order_id groups res env

/-- Branch A step 2 entry (lines 571-584): fetch the order state first unless
step 1 already re-fetched it. -/
def branchAStep2 (order_id : Option String) (c : Categories)
    (fd0 : Option OrderDetails) (res : Results) (env : Env) : Results × Env :=
  if allItemsAtRooftopshop c then (res, env)
  else
    match fd0 with
    | some d => branchAStep2Go order_id c d res env
    | none =>
      let f := takeFetch env
      match f.1 with
      | none =>
        ({ res with
            success := false
            error := some "Failed to get fulfillment order details before splitting external items" },
         f.2)
      | some d => branchAStep2Go order_id c d res f.2

/-- Branch A (lines 509-703): split length-at-home items together with the
coupling pieces, tag, re-fetch, then process external items. -/
def branchA (order_id : Option String) (c : Categories) (res : Results) (env : Env) :
    Results × Env :=
  if c.length_rooftopshop.isEmpty then
    branchAStep2 order_id c none res env
  else
    let combined :=
      c.length_rooftopshop.map (fun i => (⟨i.id, i.quantity⟩ : SplitItem))
        ++ c.daktrim_koppelstukje_rooftopshop.map (fun i => (⟨i.id, i.quantity⟩ : SplitItem))
    let s := takeSplit combined env
    match s.1.1 with
    | some new_id =>
      let res1 := { res with
        splits := res.splits ++ [⟨"length_rooftopshop_with_koppelstukje", new_id, s.1.2, combined, none⟩] }
      let t := callAddTag order_id s.2
      let res2 :=
        if t.1 then { res1 with tags_added := res1.tags_added ++ ["daktrimFulfillment"] }
        else res1
      let f := takeFetch t.2
      match f.1 with
      | none =>
        ({ res2 with
            success := false
            error := some "Failed to get updated fulfillment order details after splitting length items at Rooftopshop" },
         f.2)
      | some d => branchAStep2 order_id c (some d) res2 f.2
    | none =>
      ({ res with
          success := false
          error := some ("Failed to split length items at Rooftopshop: " ++ s.1.2) },
       s.2)

/-- Branch B (lines 704-817): coupling pieces are folded into the non-length
at-home bucket (inert for the rest of the branch); when not all non-length
items are at home, fetch, group the non-length external items and run the
location-group loop. -/
def branchB (order_id : Option String) (c : Categories) (res : Results) (env : Env) :
    Results × Env :=
  if allNonLengthAtRooftopshop c then (res, env)
  else
    let f := takeFetch env
    match f.1 with
    | none =>
      ({ res with
          success := false
          error := some "Failed to get fulfillment order details before splitting external non-length items" },
       f.2)
    | some d =>
      let groups := buildGroupsFromBucket d.line_items [] c.non_length_external
      processGroupsB order_id groups res f.2

/-- `process_fulfillment_according_to_decision_tree` (lines 471-819).  The
fulfillment order id only flows into the remote calls, which the environment
models, so it is not a parameter here. -/
def process_fulfillment_according_to_decision_tree (order_id : Option String)
    (c : Categories) (env : Env) : Results × Env :=
  let res0 : Results := ⟨true, [], [], none⟩
  let p := preStep order_id c res0 env
  if hasLengthItems c then branchA order_id c p.1 p.2
  else branchB order_id c p.1 p.2

/-! ## Classifier lemmas: each bucket is a stable filter of the input -/

/-- Bucket predicate for `daktrim_koppelstukje_rooftopshop` (line 229). -/
def isKoppelstukjeAtHome (x : LineItem) : Bool :=
  x.is_daktrim_koppelstukje && decide (homeName ∈ x.available_locations)

/-- Bucket predicate for `length_rooftopshop`. -/
def isLengthAtHome (x : LineItem) : Bool :=
  !isKoppelstukjeAtHome x && x.is_length_transport && decide (homeName ∈ x.available_locations)

/-- Bucket predicate for `length_external`. -/
def isLengthExternal (x : LineItem) : Bool :=
  !isKoppelstukjeAtHome x && x.is_length_transport && !decide (homeName ∈ x.available_locations)

/-- Bucket predicate for `non_length_rooftopshop`. -/
def isNonLengthAtHome (x : LineItem) : Bool :=
  !isKoppelstukjeAtHome x && !x.is_length_transport && decide (homeName ∈ x.available_locations)

/-- Bucket predicate for `non_length_external`. -/
def isNonLengthExternal (x : LineItem) : Bool :=
  !isKoppelstukjeAtHome x && !x.is_length_transport && !decide (homeName ∈ x.available_locations)

/-- The five buckets in one list. -/
def bucketsJoined (c : Categories) : List ItemDetails :=
  c.length_rooftopshop ++ c.non_length_rooftopshop ++ c.length_external
    ++ c.non_length_external ++ c.daktrim_koppelstukje_rooftopshop

/-- Ids of all bucket entries. -/
def joinedIds (c : Categories) : List String :=
  (bucketsJoined c).map (fun d => d.id)

/-- Contents of one location group (`location_groups.get(loc, [])`). -/
def lookupD (g : LocationGroups) (loc : String) : List SplitItem :=
  (groupsLookup g loc).getD []

/-! ## Concrete inputs used in witnesses and counterexamples -/

/-- A coupling-piece length item at the home warehouse. -/
def itKopW : LineItem :=
  ⟨"li1", "cat1", "Daktrim koppelstukje", "K1", 2, [homeName], true, true⟩

/-- A plain non-length item at an external location. -/
def itExtW : LineItem :=
  ⟨"li2", "cat2", "EPDM roll", "E1", 1, ["Redfox EPDM"], false, false⟩

def orderC1w : OrderDetails := ⟨"gid:fo1", "OPEN", [itKopW, itExtW]⟩

/-- A classified external item whose id is `"li9"`. -/
def idExtEmptyW : ItemDetails := ⟨"li9", 1, ["Compri Aluminium"], false, false⟩

/-- The remaining-items snapshot for `"li9"` reports an empty location list. -/
def liEmptyLocW : LineItem := ⟨"li9", "cat9", "profile", "P9", 1, [], false, false⟩

/-- An item whose location list starts with the home warehouse. -/
def idHomeFirstW : ItemDetails :=
  ⟨"a1", 3, [homeName, "Compri Aluminium"], false, false⟩

/-- An item listing only the home warehouse. -/
def idOnlyHomeW : ItemDetails := ⟨"a2", 1, [homeName], false, false⟩

def liHomeFirstW : LineItem :=
  ⟨"a1", "cata", "bar", "B1", 3, [homeName, "Compri Aluminium"], false, false⟩

/-- A request function that fails on attempt 0 and succeeds on attempt 1. -/
def respSuccW : Nat → AttemptOutcome :=
  fun i => if i = 0 then .exn "timeout" else .httpStatus 200 ⟨none, none⟩

/-- Agreement of orchestration results on everything except `tags_added`. -/
def ResultsAgree (a b : Results) : Prop :=
  a.success = b.success ∧ a.error = b.error ∧ a.splits = b.splits

/-- Agreement of environments on everything except the tag-response stream. -/
def EnvAgree (e f : Env) : Prop :=
  e.fetches = f.fetches ∧ e.splitResponses = f.splitResponses ∧ e.splitLog = f.splitLog

/-- Scenario-2 items: two non-length items located only at Compri Aluminium. -/
def itCompri1W : LineItem :=
  ⟨"li1", "cat1", "profile a", "s1", 1, ["Compri Aluminium"], false, false⟩

def itCompri2W : LineItem :=
  ⟨"li2", "cat2", "profile b", "s2", 1, ["Compri Aluminium"], false, false⟩

def orderC3w : OrderDetails := ⟨"gid:fo1", "OPEN", [itCompri1W, itCompri2W]⟩

/-- Environment for the scenario-2 run: the re-fetch before grouping returns
the same two items, the single split succeeds, the post-split re-fetch shows
nothing remaining, and both tag calls succeed. -/
def envC3w : Env :=
  ⟨[some orderC3w, some ⟨"gid:fo1", "OPEN", []⟩], [(some "gid:fo2", "OPEN")], [true, true], []⟩

/-- A single length-transport item at the home warehouse. -/
def itLenHomeW : LineItem := ⟨"li1", "cat1", "Daktrim 100", "D1", 2, [homeName], true, false⟩

def orderC10w : OrderDetails := ⟨"gid:fo1", "OPEN", [itLenHomeW]⟩

/-- Environment for the C10 run: the length-at-home split succeeds, the
post-split re-fetch shows nothing remaining, and both tag calls succeed. -/
def envC10w : Env :=
  ⟨[some ⟨"gid:fo1", "OPEN", []⟩], [(some "gid:fo2", "OPEN")], [true, true], []⟩

/-- A length-transport item at an external location. -/
def itLenExtW : LineItem :=
  ⟨"lx1", "catx", "Long profile", "L1", 1, ["Redfox EPDM"], true, false⟩

/-- An order with a coupling piece at home and a length item only external. -/
def orderC9w : OrderDetails := ⟨"gid:fo1", "OPEN", [itKopW, itLenExtW]⟩

/-- Environment for the C9 run: the pre-split fetch still shows the length
item, the split succeeds, and the post-split fetch shows nothing remaining. -/
def envC9w : Env :=
  ⟨[some ⟨"gid:fo1", "OPEN", [itLenExtW]⟩, some ⟨"gid:fo1", "OPEN", []⟩],
   [(some "gid:fo2", "OPEN")], [true, true], []⟩

/-- The availability-location normalization as the spec words it (§4.2):
"If parsing fails or yields a non-list, falls back to: empty if the raw value
is falsy, else a single-element set containing the raw value."  Stated only
for comparison with the code's behavior (`applyMetafield`). -/
def specNormalizeLocations (rawValue : String) (parsed : Option PyValue) : List PyValue :=
  match parsed with
  | some (.list l) => l
  | _ => if rawValue = "" then [] else [.str rawValue]

theorem categorize_foldl (l : List LineItem) (acc : Categories) :
    l.foldl categorizeStep acc =
      ⟨acc.length_rooftopshop ++ (l.filter isLengthAtHome).map toItemDetails,
       acc.non_length_rooftopshop ++ (l.filter isNonLengthAtHome).map toItemDetails,
       acc.length_external ++ (l.filter isLengthExternal).map toItemDetails,
       acc.non_length_external ++ (l.filter isNonLengthExternal).map toItemDetails,
       acc.daktrim_koppelstukje_rooftopshop ++ (l.filter isKoppelstukjeAtHome).map toItemDetails⟩ := by
  induction l generalizing acc with
  | nil => simp
  | cons x t ih =>
    rw [List.foldl_cons, ih]
    by_cases hk : x.is_daktrim_koppelstukje = true <;>
      by_cases hh : homeName ∈ x.available_locations <;>
        by_cases hl : x.is_length_transport = true <;>
          simp [categorizeStep, isKoppelstukjeAtHome, isLengthAtHome, isLengthExternal,
                isNonLengthAtHome, isNonLengthExternal, hk, hh, hl, List.filter_cons]

theorem categorize_items_eq (o : OrderDetails) :
    categorize_items o =
      ⟨(o.line_items.filter isLengthAtHome).map toItemDetails,
       (o.line_items.filter isNonLengthAtHome).map toItemDetails,
       (o.line_items.filter isLengthExternal).map toItemDetails,
       (o.line_items.filter isNonLengthExternal).map toItemDetails,
       (o.line_items.filter isKoppelstukjeAtHome).map toItemDetails⟩ := by
  have h := categorize_foldl o.line_items emptyCategories
  simpa [categorize_items, emptyCategories] using h

theorem fiveFilterLength (l : List LineItem) :
    (l.filter isLengthAtHome).length + (l.filter isNonLengthAtHome).length
      + (l.filter isLengthExternal).length + (l.filter isNonLengthExternal).length
      + (l.filter isKoppelstukjeAtHome).length = l.length := by
  induction l with
  | nil => simp
  | cons x t ih =>
    by_cases hk : x.is_daktrim_koppelstukje = true <;>
      by_cases hh : homeName ∈ x.available_locations <;>
        by_cases hl : x.is_length_transport = true <;>
          simp [isKoppelstukjeAtHome, isLengthAtHome, isLengthExternal,
                isNonLengthAtHome, isNonLengthExternal, hk, hh, hl, List.filter_cons] <;>
            omega

/-- No two of the five bucket predicates hold of the same item. -/
theorem bucketPredsExclusive (x : LineItem) :
    ¬(isLengthAtHome x = true ∧ isNonLengthAtHome x = true)
    ∧ ¬(isLengthAtHome x = true ∧ isLengthExternal x = true)
    ∧ ¬(isLengthAtHome x = true ∧ isNonLengthExternal x = true)
    ∧ ¬(isLengthAtHome x = true ∧ isKoppelstukjeAtHome x = true)
    ∧ ¬(isNonLengthAtHome x = true ∧ isLengthExternal x = true)
    ∧ ¬(isNonLengthAtHome x = true ∧ isNonLengthExternal x = true)
    ∧ ¬(isNonLengthAtHome x = true ∧ isKoppelstukjeAtHome x = true)
    ∧ ¬(isLengthExternal x = true ∧ isNonLengthExternal x = true)
    ∧ ¬(isLengthExternal x = true ∧ isKoppelstukjeAtHome x = true)
    ∧ ¬(isNonLengthExternal x = true ∧ isKoppelstukjeAtHome x = true) := by
  by_cases hk : x.is_daktrim_koppelstukje = true <;>
    by_cases hh : homeName ∈ x.available_locations <;>
      by_cases hl : x.is_length_transport = true <;>
        simp [isKoppelstukjeAtHome, isLengthAtHome, isLengthExternal,
              isNonLengthAtHome, isNonLengthExternal, hk, hh, hl]

/-- The id of a line item survives into its bucket entry. -/
theorem toItemDetails_id (x : LineItem) :
    (toItemDetails x).id = x.fulfillment_order_line_item_id := rfl

/-- Ids of one filtered-bucket image, as a map over the source list. -/
theorem bucketIds_eq (l : List LineItem) (p : LineItem → Bool) :
    ((l.filter p).map toItemDetails).map (fun d => d.id)
      = (l.filter p).map (fun x => x.fulfillment_order_line_item_id) := by
  simp only [List.map_map]
  exact List.map_congr_left (fun a _ => rfl)

/-- Disjointness of the id lists of two buckets, from id-uniqueness of the
input and exclusivity of the predicates. -/
theorem bucketIds_disjoint (l : List LineItem) (p q : LineItem → Bool)
    (hnd : (l.map (fun x => x.fulfillment_order_line_item_id)).Nodup)
    (hexcl : ∀ x, ¬(p x = true ∧ q x = true)) :
    ((l.filter p).map (fun x => x.fulfillment_order_line_item_id)).Disjoint
      ((l.filter q).map (fun x => x.fulfillment_order_line_item_id)) := by
  intro a ha hb
  rcases List.mem_map.mp ha with ⟨x, hx, hxa⟩
  rcases List.mem_map.mp hb with ⟨y, hy, hya⟩
  rcases List.mem_filter.mp hx with ⟨hxl, hxp⟩
  rcases List.mem_filter.mp hy with ⟨hyl, hyq⟩
  have hxy : x = y :=
    List.inj_on_of_nodup_map hnd hxl hyl (by rw [hxa, hya])
  exact hexcl x ⟨hxp, hxy ▸ hyq⟩

/-- Nodup of the id list of one bucket. -/
theorem bucketIds_nodup (l : List LineItem) (p : LineItem → Bool)
    (hnd : (l.map (fun x => x.fulfillment_order_line_item_id)).Nodup) :
    ((l.filter p).map (fun x => x.fulfillment_order_line_item_id)).Nodup := by
  have hsub : (l.filter p).Sublist l := List.filter_sublist l
  exact hnd.sublist (hsub.map (fun x => x.fulfillment_order_line_item_id))

/-- C1: `categorize_items` is a partition.  The five buckets together hold
exactly as many entries as the input; when the input line-item ids are
pairwise distinct, no id appears in two buckets (the concatenated id list has
no duplicates); and an item with `is_daktrim_koppelstukje`,
`is_length_transport`, and the home warehouse in its locations lands in the
coupling-piece bucket and never in the length-at-home bucket. -/
theorem c1_categorize_partition (o : OrderDetails) :
    (bucketsJoined (categorize_items o)).length = o.line_items.length
    ∧ ((o.line_items.map (fun x => x.fulfillment_order_line_item_id)).Nodup →
        (joinedIds (categorize_items o)).Nodup)
    ∧ (∀ it ∈ o.line_items,
        it.is_daktrim_koppelstukje = true → it.is_length_transport = true →
        homeName ∈ it.available_locations →
        toItemDetails it ∈ (categorize_items o).daktrim_koppelstukje_rooftopshop
        ∧ toItemDetails it ∉ (categorize_items o).length_rooftopshop) := by
  rw [categorize_items_eq o]
  refine ⟨?_, ?_, ?_⟩
  · simp only [bucketsJoined, List.length_append, List.length_map]
    have h := fiveFilterLength o.line_items
    omega
  · intro hnd
    set l := o.line_items with hl
    have hids : ∀ p : LineItem → Bool,
        ((l.filter p).map toItemDetails).map (fun d => d.id)
          = (l.filter p).map (fun x => x.fulfillment_order_line_item_id) :=
      fun p => bucketIds_eq l p
    simp only [joinedIds, bucketsJoined, List.map_append, hids]
    have hdisj : ∀ p q : LineItem → Bool, (∀ x, ¬(p x = true ∧ q x = true)) →
        ((l.filter p).map (fun x => x.fulfillment_order_line_item_id)).Disjoint
          ((l.filter q).map (fun x => x.fulfillment_order_line_item_id)) :=
      fun p q h => bucketIds_disjoint l p q hnd h
    have hn : ∀ p : LineItem → Bool,
        ((l.filter p).map (fun x => x.fulfillment_order_line_item_id)).Nodup :=
      fun p => bucketIds_nodup l p hnd
    have d12 := hdisj _ _ (fun x => (bucketPredsExclusive x).1)
    have d13 := hdisj _ _ (fun x => (bucketPredsExclusive x).2.1)
    have d14 := hdisj _ _ (fun x => (bucketPredsExclusive x).2.2.1)
    have d15 := hdisj _ _ (fun x => (bucketPredsExclusive x).2.2.2.1)
    have d23 := hdisj _ _ (fun x => (bucketPredsExclusive x).2.2.2.2.1)
    have d24 := hdisj _ _ (fun x => (bucketPredsExclusive x).2.2.2.2.2.1)
    have d25 := hdisj _ _ (fun x => (bucketPredsExclusive x).2.2.2.2.2.2.1)
    have d34 := hdisj _ _ (fun x => (bucketPredsExclusive x).2.2.2.2.2.2.2.1)
    have d35 := hdisj _ _ (fun x => (bucketPredsExclusive x).2.2.2.2.2.2.2.2.1)
    have d45 := hdisj _ _ (fun x => (bucketPredsExclusive x).2.2.2.2.2.2.2.2.2)
    simp only [List.nodup_append, List.disjoint_append_left, List.disjoint_append_right]
    repeat' apply And.intro
    all_goals first
      | exact hn _ | exact d12 | exact d13 | exact d14 | exact d15 | exact d23
      | exact d24 | exact d25 | exact d34 | exact d35 | exact d45
  · intro it hit hdak hlen hhome
    constructor
    · refine List.mem_map.mpr ⟨it, List.mem_filter.mpr ⟨hit, ?_⟩, rfl⟩
      simp [isKoppelstukjeAtHome, hdak, hhome]
    · intro hmem
      rcases List.mem_map.mp hmem with ⟨y, hy, hyd⟩
      rcases List.mem_filter.mp hy with ⟨_, hyp⟩
      have h1 : y.is_daktrim_koppelstukje = it.is_daktrim_koppelstukje := by
        have := congrArg ItemDetails.is_daktrim_koppelstukje hyd
        simpa [toItemDetails] using this
      have h2 : y.available_locations = it.available_locations := by
        have := congrArg ItemDetails.locations hyd
        simpa [toItemDetails] using this
      simp [isLengthAtHome, isKoppelstukjeAtHome, h1, h2, hdak, hhome] at hyp

/-- Witness for C1 on a concrete two-item order. -/
theorem c1_categorize_partition_witness :
    (bucketsJoined (categorize_items orderC1w)).length = orderC1w.line_items.length
    ∧ (joinedIds (categorize_items orderC1w)).Nodup
    ∧ (toItemDetails itKopW ∈ (categorize_items orderC1w).daktrim_koppelstukje_rooftopshop
       ∧ toItemDetails itKopW ∉ (categorize_items orderC1w).length_rooftopshop) := by
  have h := c1_categorize_partition orderC1w
  exact ⟨h.1, h.2.1 (by decide), h.2.2 itKopW (by decide) rfl rfl (by decide)⟩

/-! ## Location-group lemmas -/

theorem groupsLookup_addToGroup_self (g : LocationGroups) (loc : String) (e : SplitItem) :
    groupsLookup (addToGroup g loc e) loc = some (lookupD g loc ++ [e]) := by
  induction g with
  | nil => simp [addToGroup, groupsLookup, lookupD]
  | cons h t ih =>
    obtain ⟨l, items⟩ := h
    by_cases hl : l = loc
    · subst hl
      simp [addToGroup, groupsLookup, lookupD]
    · simp [addToGroup, groupsLookup, lookupD, hl, ih]

theorem groupsLookup_addToGroup_other (g : LocationGroups) (loc loc' : String)
    (e : SplitItem) (hne : loc' ≠ loc) :
    groupsLookup (addToGroup g loc e) loc' = groupsLookup g loc' := by
  induction g with
  | nil => simp [addToGroup, groupsLookup, Ne.symm hne]
  | cons h t ih =>
    obtain ⟨l, items⟩ := h
    by_cases hl : l = loc
    · subst hl
      simp [addToGroup, groupsLookup, hne, Ne.symm hne]
    · simp [addToGroup, groupsLookup, hl, ih]

theorem mem_lookupD_addToGroup_self (g : LocationGroups) (loc : String) (e : SplitItem) :
    e ∈ lookupD (addToGroup g loc e) loc := by
  rw [lookupD, groupsLookup_addToGroup_self]
  simp

theorem mem_lookupD_addToGroup_mono (g : LocationGroups) (loc' : String) (e' : SplitItem)
    (loc : String) (e : SplitItem) (h : e ∈ lookupD g loc) :
    e ∈ lookupD (addToGroup g loc' e') loc := by
  by_cases hl : loc = loc'
  · subst hl
    rw [lookupD, groupsLookup_addToGroup_self]
    simp only [Option.getD_some, List.mem_append]
    exact Or.inl h
  · rw [lookupD, groupsLookup_addToGroup_other g loc' loc e' hl]
    exact h

theorem foldl_lookupD_mono {β : Type} (step : LocationGroups → β → LocationGroups)
    (hstep : ∀ g i loc e, e ∈ lookupD g loc → e ∈ lookupD (step g i) loc) :
    ∀ (items : List β) (g : LocationGroups) (loc : String) (e : SplitItem),
      e ∈ lookupD g loc → e ∈ lookupD (items.foldl step g) loc := by
  intro items
  induction items with
  | nil => intro g loc e h; exact h
  | cons x t ih => intro g loc e h; exact ih _ _ _ (hstep g x loc e h)

/-- `groupByStep` always files the item under its target group: the first
non-home location, or `"unknown"` when there is none. -/
theorem groupByStep_eq (g : LocationGroups) (item : ItemDetails) :
    groupByStep g item
      = addToGroup g ((firstExternalLocation item.locations).getD "unknown")
          ⟨item.id, item.quantity⟩ := by
  cases h : firstExternalLocation item.locations <;> simp [groupByStep, h]

theorem mem_group_by_foldl (items : List ItemDetails) :
    ∀ (g : LocationGroups) (item : ItemDetails), item ∈ items →
      (⟨item.id, item.quantity⟩ : SplitItem)
        ∈ lookupD (items.foldl groupByStep g)
            ((firstExternalLocation item.locations).getD "unknown") := by
  induction items with
  | nil => intro g item h; cases h
  | cons x t ih =>
    intro g item h
    rcases List.mem_cons.mp h with rfl | ht
    · have h1 : (⟨item.id, item.quantity⟩ : SplitItem)
          ∈ lookupD (groupByStep g item)
              ((firstExternalLocation item.locations).getD "unknown") := by
        rw [groupByStep_eq]
        exact mem_lookupD_addToGroup_self g _ _
      exact foldl_lookupD_mono groupByStep
        (fun g i loc e h => by rw [groupByStep_eq]; exact mem_lookupD_addToGroup_mono g _ _ loc e h)
        t _ _ _ h1
    · exact ih (groupByStep g x) item ht

/-- The orchestrator's inline grouping step is monotone on group contents. -/
theorem addExternalItem_mono (remaining : List LineItem) (g : LocationGroups)
    (item : ItemDetails) (loc : String) (e : SplitItem) (h : e ∈ lookupD g loc) :
    e ∈ lookupD (addExternalItem remaining g item) loc := by
  rcases hli : lookupLineItem remaining item.id with _ | li
  · simpa [addExternalItem, hli] using h
  · rcases hf : firstExternalLocation li.available_locations with _ | l
    · by_cases he : li.available_locations.isEmpty
      · simpa [addExternalItem, hli, hf, he] using h
      · simpa [addExternalItem, hli, hf, he] using mem_lookupD_addToGroup_mono g _ _ loc e h
    · simpa [addExternalItem, hli, hf] using mem_lookupD_addToGroup_mono g _ _ loc e h

theorem mem_buildGroups_foldl (bucket : List ItemDetails) (remaining : List LineItem) :
    ∀ (g : LocationGroups) (item : ItemDetails) (li : LineItem), item ∈ bucket →
      lookupLineItem remaining item.id = some li →
      li.available_locations ≠ [] →
      (⟨item.id, item.quantity⟩ : SplitItem)
        ∈ lookupD (buildGroupsFromBucket remaining g bucket)
            ((firstExternalLocation li.available_locations).getD "unknown") := by
  induction bucket with
  | nil => intro g item li h; cases h
  | cons x t ih =>
    intro g item li h hli hne
    rcases List.mem_cons.mp h with rfl | ht
    · have h1 : (⟨item.id, item.quantity⟩ : SplitItem)
          ∈ lookupD (addExternalItem remaining g item)
              ((firstExternalLocation li.available_locations).getD "unknown") := by
        unfold addExternalItem
        rw [hli]
        cases hf : firstExternalLocation li.available_locations with
        | some l => simpa [hf] using mem_lookupD_addToGroup_self g l _
        | none =>
          have : ¬li.available_locations.isEmpty := by
            simpa [List.isEmpty_iff] using hne
          simpa [hf, this] using mem_lookupD_addToGroup_self g "unknown" _
      exact foldl_lookupD_mono (addExternalItem remaining)
        (fun g i loc e h => addExternalItem_mono remaining g i loc e h)
        t _ _ _ h1
    · exact ih (addExternalItem remaining g x) item li ht hli hne

/-- An item whose current snapshot location list is empty is skipped by the
inline grouping. -/
theorem addExternalItem_skips_empty (remaining : List LineItem) (g : LocationGroups)
    (item : ItemDetails) (li : LineItem)
    (hli : lookupLineItem remaining item.id = some li)
    (he : li.available_locations = []) :
    addExternalItem remaining g item = g := by
  unfold addExternalItem
  rw [hli]
  simp [he, firstExternalLocation]

/-- C2 counterexample: inside the orchestrator, a candidate item whose
remaining-snapshot location list is empty is dropped entirely — the resulting
groups are empty and there is no `"unknown"` group, where the claim requires
the item to be filed under `"unknown"`. -/
theorem c2_counterexample :
    buildGroupsFromBucket [liEmptyLocW] [] [idExtEmptyW] = []
    ∧ groupsLookup (buildGroupsFromBucket [liEmptyLocW] [] [idExtEmptyW]) "unknown" = none := by
  exact ⟨rfl, rfl⟩

/-- C2 (amended): the standalone `group_by_external_location` assigns every
item to its first non-home location, with `"unknown"` as the fallback both
for home-only and for empty location lists; the orchestrator's inline
grouping does the same for items whose snapshot location list is non-empty,
but silently drops an item whose snapshot location list is empty. -/
theorem c2_grouping_deterministic :
    (∀ (items : List ItemDetails) (item : ItemDetails), item ∈ items →
      (⟨item.id, item.quantity⟩ : SplitItem)
        ∈ lookupD (group_by_external_location items)
            ((firstExternalLocation item.locations).getD "unknown"))
    ∧ (∀ locs : List String, locs = [homeName] ∨ locs = [] →
        (firstExternalLocation locs).getD "unknown" = "unknown")
    ∧ (∀ (bucket : List ItemDetails) (remaining : List LineItem) (item : ItemDetails)
         (li : LineItem), item ∈ bucket →
        lookupLineItem remaining item.id = some li →
        li.available_locations ≠ [] →
        (⟨item.id, item.quantity⟩ : SplitItem)
          ∈ lookupD (buildGroupsFromBucket remaining [] bucket)
              ((firstExternalLocation li.available_locations).getD "unknown"))
    ∧ (∀ (remaining : List LineItem) (g : LocationGroups) (item : ItemDetails)
         (li : LineItem),
        lookupLineItem remaining item.id = some li →
        li.available_locations = [] →
        addExternalItem remaining g item = g) := by
  refine ⟨?_, ?_, ?_, ?_⟩
  · intro items item h
    exact mem_group_by_foldl items [] item h
  · intro locs h
    rcases h with rfl | rfl <;> simp [firstExternalLocation]
  · intro bucket remaining item li h hli hne
    exact mem_buildGroups_foldl bucket remaining [] item li h hli hne
  · intro remaining g item li hli he
    exact addExternalItem_skips_empty remaining g item li hli he

/-- Witness for C2 on concrete inputs: the standalone grouper files a
home-first item under its first external location and a home-only item under
`"unknown"`; the inline grouper does the same for a non-empty snapshot list,
and skips an empty-snapshot item. -/
theorem c2_grouping_deterministic_witness :
    ((⟨"a1", 3⟩ : SplitItem)
      ∈ lookupD (group_by_external_location [idHomeFirstW, idOnlyHomeW])
          ((firstExternalLocation idHomeFirstW.locations).getD "unknown"))
    ∧ ((⟨"a2", 1⟩ : SplitItem)
      ∈ lookupD (group_by_external_location [idHomeFirstW, idOnlyHomeW])
          ((firstExternalLocation idOnlyHomeW.locations).getD "unknown"))
    ∧ (firstExternalLocation [homeName]).getD "unknown" = "unknown"
    ∧ ((⟨"a1", 3⟩ : SplitItem)
      ∈ lookupD (buildGroupsFromBucket [liHomeFirstW] [] [idHomeFirstW])
          ((firstExternalLocation liHomeFirstW.available_locations).getD "unknown"))
    ∧ addExternalItem [liEmptyLocW] [] idExtEmptyW = [] := by
  refine ⟨?_, ?_, ?_, ?_, ?_⟩
  · exact c2_grouping_deterministic.1 [idHomeFirstW, idOnlyHomeW] idHomeFirstW (by decide)
  · exact c2_grouping_deterministic.1 [idHomeFirstW, idOnlyHomeW] idOnlyHomeW (by decide)
  · exact c2_grouping_deterministic.2.1 [homeName] (Or.inl rfl)
  · exact c2_grouping_deterministic.2.2.1 [idHomeFirstW] [liHomeFirstW]
      idHomeFirstW liHomeFirstW (by decide) (by decide) (by decide)
  · exact c2_grouping_deterministic.2.2.2 [liEmptyLocW] [] idExtEmptyW liEmptyLocW
      (by decide) rfl

/-! ## Fetcher theorems -/

/-- C4: the order-detail fetcher on its three failure cases.  When the
executor returns null, the log branch (line 93) evaluates
`'errors' in result` on `None` and raises `TypeError` instead of returning
`None`; the other two claimed failure cases (application-level errors,
absent fulfillment order) do return `None`. -/
theorem c4_fetch_null_raises :
    (∀ foid : String,
      get_fulfillment_order_details foid none
        = .raised "TypeError: argument of type NoneType is not iterable")
    ∧ (∀ (foid : String) (errs : List String) (fo : Option RFulfillmentOrder),
        get_fulfillment_order_details foid (some ⟨some errs, fo⟩) = .ok none)
    ∧ (∀ foid : String,
        get_fulfillment_order_details foid (some ⟨none, none⟩) = .ok none) := by
  refine ⟨fun foid => rfl, ?_, fun foid => rfl⟩
  intro foid errs fo
  simp [get_fulfillment_order_details, truthyResponse]

/-- C7 counterexample: a metafield value that fails to parse
(`json.loads("abc")` raises) yields the empty location list in the code,
while the claim demands a single-element list containing the raw value
(the raw string "abc" is truthy). -/
theorem c7_counterexample :
    (applyMetafield ⟨[], false, false⟩ ⟨"availability_location", "abc", none⟩).available_locations
      = []
    ∧ specNormalizeLocations "abc" none = [PyValue.str "abc"]
    ∧ (applyMetafield ⟨[], false, false⟩
        ⟨"availability_location", "abc", none⟩).available_locations
      ≠ specNormalizeLocations "abc" none := by
  refine ⟨rfl, rfl, ?_⟩
  intro h
  have h0 : ([] : List PyValue) = [PyValue.str "abc"] := h
  exact List.noConfusion h0

/-- C7 (amended): for the `availability_location` metafield, a parse failure
yields the empty location list regardless of the raw value; a parsed
non-list value falls back to the empty list when the parsed value is falsy
and to a singleton of the parsed value otherwise; a parsed list is taken as
is; and a parse failure never fails the fetch — the fetch still succeeds and
the item is returned with no known location. -/
theorem c7_normalize_locations :
    (∀ (acc : MetaAcc) (raw : String),
      applyMetafield acc ⟨"availability_location", raw, none⟩
        = { acc with available_locations := [] })
    ∧ (∀ (acc : MetaAcc) (raw : String) (l : List PyValue),
        applyMetafield acc ⟨"availability_location", raw, some (.list l)⟩
          = { acc with available_locations := l })
    ∧ (∀ (acc : MetaAcc) (raw : String) (v : PyValue), (∀ l, v ≠ .list l) →
        applyMetafield acc ⟨"availability_location", raw, some v⟩
          = { acc with available_locations := if truthyPy v then [v] else [] })
    ∧ (∀ (foid : String) (fo : RFulfillmentOrder),
        get_fulfillment_order_details foid (some ⟨none, some fo⟩)
          = .ok (some ⟨foid, fo.status, fo.edges.map parseLineItem⟩))
    ∧ (∀ (nid cid nm sk : String) (q : Nat) (raw : String),
        (parseLineItem ⟨nid, ⟨cid, nm, sk, q,
            some [⟨"availability_location", raw, none⟩]⟩⟩).available_locations = []) := by
  refine ⟨?_, ?_, ?_, ?_, ?_⟩
  · intro acc raw
    simp [applyMetafield]
  · intro acc raw l
    simp [applyMetafield]
  · intro acc raw v hv
    cases v with
    | list l => exact absurd rfl (hv l)
    | null => simp [applyMetafield]
    | bool b => simp [applyMetafield]
    | num n => simp [applyMetafield]
    | str s => simp [applyMetafield]
  · intro foid fo
    simp [get_fulfillment_order_details, truthyResponse]
  · intro nid cid nm sk q raw
    simp [parseLineItem, applyMetafield]

/-- Witness for C7 at concrete inputs. -/
theorem c7_normalize_locations_witness :
    applyMetafield ⟨[], false, false⟩ ⟨"availability_location", "x", none⟩
      = ({ available_locations := [], is_length_transport := false,
           is_daktrim_koppelstukje := false } : MetaAcc)
    ∧ applyMetafield ⟨[], false, false⟩
        ⟨"availability_location", "42", some (.num 42)⟩
      = ({ available_locations := [PyValue.num 42], is_length_transport := false,
           is_daktrim_koppelstukje := false } : MetaAcc) := by
  constructor
  · exact c7_normalize_locations.1 ⟨[], false, false⟩ "x"
  · have h := c7_normalize_locations.2.2.1 ⟨[], false, false⟩ "42" (.num 42)
      (fun l => by exact fun hc => PyValue.noConfusion hc)
    simpa [truthyPy] using h

/-! ## Retry-loop lemmas -/

theorem send_request_attempts_all_fail (responses : Nat → AttemptOutcome)
    (maxR delay : Nat) :
    ∀ (n a : Nat), maxR - a = n →
      (∀ i, a ≤ i → i < maxR → is200 (responses i) = false) →
      send_request_attempts responses maxR delay a
        = (none, (List.range' (a + 1) (maxR - 1 - a)).map (fun j => delay * j)) := by
  intro n
  induction n with
  | zero =>
    intro a hn hfail
    have ha : ¬a < maxR := by omega
    have h0 : maxR - 1 - a = 0 := by omega
    rw [send_request_attempts]
    simp [ha, h0]
  | succ n ih =>
    intro a hn hfail
    have ha : a < maxR := by omega
    have hf := hfail a (le_refl a) ha
    rw [send_request_attempts]
    simp only [ha, if_true]
    have hrec := ih (a + 1) (by omega) (fun i h1 h2 => hfail i (by omega) h2)
    cases hr : responses a with
    | exn msg =>
      simp only [hrec]
      by_cases hlast : a < maxR - 1
      · have h1 : maxR - 1 - a = (maxR - 1 - (a + 1)) + 1 := by omega
        simp [hlast, h1, List.range'_succ]
      · have h1 : maxR - 1 - a = 0 := by omega
        have h2 : maxR - 1 - (a + 1) = 0 := by omega
        simp [hlast, h1, h2]
    | httpStatus code body =>
      have hcode : ¬code = 200 := by
        intro hc
        rw [hr, hc] at hf
        simp [is200] at hf
      simp only [hcode, if_false, hrec]
      by_cases hlast : a < maxR - 1
      · have h1 : maxR - 1 - a = (maxR - 1 - (a + 1)) + 1 := by omega
        simp [hlast, h1, List.range'_succ]
      · have h1 : maxR - 1 - a = 0 := by omega
        have h2 : maxR - 1 - (a + 1) = 0 := by omega
        simp [hlast, h1, h2]

theorem send_request_attempts_success (responses : Nat → AttemptOutcome)
    (maxR delay : Nat) :
    ∀ (k a : Nat) (body : RawResponse), a + k < maxR →
      (∀ i, a ≤ i → i < a + k → is200 (responses i) = false) →
      responses (a + k) = .httpStatus 200 body →
      send_request_attempts responses maxR delay a
        = (some body, (List.range' (a + 1) k).map (fun j => delay * j) ++ [500]) := by
  intro k
  induction k with
  | zero =>
    intro a body ha hfail hsucc
    rw [send_request_attempts]
    simp only [Nat.add_zero] at ha hsucc
    simp [ha, hsucc]
  | succ k ih =>
    intro a body ha hfail hsucc
    have ha0 : a < maxR := by omega
    have hf := hfail a (le_refl a) (by omega)
    have hrec := ih (a + 1) body (by omega)
      (fun i h1 h2 => hfail i (by omega) (by omega))
      (by rw [show a + 1 + k = a + (k + 1) by omega]; exact hsucc)
    have hlast : a < maxR - 1 := by omega
    rw [send_request_attempts]
    simp only [ha0, if_true]
    cases hr : responses a with
    | exn msg =>
      simp only [hrec, hlast, if_true]
      have h1 : (List.range' (a + 1) (k + 1)) = (a + 1) :: List.range' (a + 2) k := by
        rw [List.range'_succ]
      simp [h1]
    | httpStatus code body2 =>
      have hcode : ¬code = 200 := by
        intro hc
        rw [hr, hc] at hf
        simp [is200] at hf
      simp only [hcode, if_false, hrec, hlast, if_true]
      have h1 : (List.range' (a + 1) (k + 1)) = (a + 1) :: List.range' (a + 2) k := by
        rw [List.range'_succ]
      simp [h1]

theorem send_request_attempts_none (responses : Nat → AttemptOutcome)
    (maxR delay : Nat) :
    ∀ (n a : Nat), maxR - a = n →
      (send_request_attempts responses maxR delay a).1 = none →
      ∀ i, a ≤ i → i < maxR → is200 (responses i) = false := by
  intro n
  induction n with
  | zero =>
    intro a hn _ i h1 h2
    omega
  | succ n ih =>
    intro a hn hnone i h1 h2
    have ha : a < maxR := by omega
    rw [send_request_attempts] at hnone
    simp only [ha, if_true] at hnone
    rcases Nat.lt_or_ge a i with hai | hai
    on_goal 2 =>
      have hia : i = a := by omega
      subst hia
      cases hr : responses i with
      | exn msg => simp [is200]
      | httpStatus code body =>
        rw [hr] at hnone
        by_cases hc : code = 200
        · subst hc
          simp at hnone
        · simp [is200, hc]
    cases hr : responses a with
    | exn msg =>
      rw [hr] at hnone
      have hnone2 : (send_request_attempts responses maxR delay (a + 1)).1 = none := by
        simpa using hnone
      exact ih (a + 1) (by omega) hnone2 i (by omega) h2
    | httpStatus code body =>
      rw [hr] at hnone
      by_cases hc : code = 200
      · subst hc
        simp at hnone
      · simp only [hc, if_false] at hnone
        have hnone2 : (send_request_attempts responses maxR delay (a + 1)).1 = none := by
          simpa using hnone
        exact ih (a + 1) (by omega) hnone2 i (by omega) h2

/-- C6: the retry contract of `send_request_with_retry`.  When every attempt
below the configured maximum fails (transport exception or non-200 status),
the result is null and the sleeps are the linear backoff
`delay*1, delay*2, ..., delay*(max-1)` — no wait after the final attempt;
when the first success is at attempt `k`, the earlier failures each slept
their backoff, a fixed 500 ms follows the success, and the body is returned;
null is returned only when every attempt within the maximum failed; with the
defaults (3 attempts, 2000 ms) the all-fail sleep trace is exactly
`[2000, 4000]`. -/
theorem c6_retry_contract :
    (∀ (responses : Nat → AttemptOutcome) (maxR delay : Nat),
      (∀ i, i < maxR → is200 (responses i) = false) →
      send_request_with_retry responses maxR delay
        = (none, (List.range' 1 (maxR - 1)).map (fun j => delay * j)))
    ∧ (∀ (responses : Nat → AttemptOutcome) (maxR delay k : Nat) (body : RawResponse),
        k < maxR →
        (∀ i, i < k → is200 (responses i) = false) →
        responses k = .httpStatus 200 body →
        send_request_with_retry responses maxR delay
          = (some body, (List.range' 1 k).map (fun j => delay * j) ++ [500]))
    ∧ (∀ (responses : Nat → AttemptOutcome) (maxR delay : Nat),
        (send_request_with_retry responses maxR delay).1 = none →
        ∀ i, i < maxR → is200 (responses i) = false)
    ∧ (∀ responses : Nat → AttemptOutcome,
        (∀ i, i < 3 → is200 (responses i) = false) →
        send_request_with_retry responses 3 2000 = (none, [2000, 4000])) := by
  have hall : ∀ (responses : Nat → AttemptOutcome) (maxR delay : Nat),
      (∀ i, i < maxR → is200 (responses i) = false) →
      send_request_with_retry responses maxR delay
        = (none, (List.range' 1 (maxR - 1)).map (fun j => delay * j)) := by
    intro responses maxR delay hfail
    have h := send_request_attempts_all_fail responses maxR delay (maxR - 0) 0 rfl
      (fun i _ h2 => hfail i h2)
    simpa [send_request_with_retry] using h
  refine ⟨hall, ?_, ?_, ?_⟩
  · intro responses maxR delay k body hk hfail hsucc
    have h := send_request_attempts_success responses maxR delay k 0 body
      (by omega) (fun i _ h2 => hfail i (by omega)) (by simpa using hsucc)
    simpa [send_request_with_retry] using h
  · intro responses maxR delay hnone i hi
    exact send_request_attempts_none responses maxR delay (maxR - 0) 0 rfl hnone i
      (Nat.zero_le i) hi
  · intro responses hfail
    have h := hall responses 3 2000 hfail
    simpa [List.range'] using h

/-- Witness for C6: three transport failures give a null result with backoff
sleeps of 2 s and 4 s; a failure followed by a success returns the body
after one 2 s backoff and the 500 ms post-success delay. -/
theorem c6_retry_contract_witness :
    send_request_with_retry (fun _ => .exn "connection reset") 3 2000
      = (none, [2000, 4000])
    ∧ send_request_with_retry respSuccW 3 2000
      = (some ⟨none, none⟩, [2000, 500]) := by
  constructor
  · exact c6_retry_contract.2.2.2 (fun _ => .exn "connection reset") (fun i _ => rfl)
  · have h := c6_retry_contract.2.1 respSuccW 3 2000 1 ⟨none, none⟩ (by omega)
      (fun i hi => by
        have hi0 : i = 0 := by omega
        subst hi0
        rfl)
      rfl
    simpa [List.range'] using h

/-! ## Orchestrator: primitive environment lemmas -/

theorem takeFetch_splitResponses (env : Env) :
    (takeFetch env).2.splitResponses = env.splitResponses := by
  cases h : env.fetches <;> simp [takeFetch, h]

theorem takeFetch_splitLog (env : Env) :
    (takeFetch env).2.splitLog = env.splitLog := by
  cases h : env.fetches <;> simp [takeFetch, h]

theorem takeFetch_tagResponses (env : Env) :
    (takeFetch env).2.tagResponses = env.tagResponses := by
  cases h : env.fetches <;> simp [takeFetch, h]

theorem takeTag_envAgree (env : Env) : EnvAgree (takeTag env).2 env := by
  cases h : env.tagResponses <;> simp [takeTag, h, EnvAgree]

theorem callAddTag_envAgree (oid : Option String) (env : Env) :
    EnvAgree (callAddTag oid env).2 env := by
  cases oid with
  | none => exact ⟨rfl, rfl, rfl⟩
  | some s =>
    by_cases hs : s = "" <;> simp [callAddTag, hs, EnvAgree]
    exact takeTag_envAgree env

theorem takeSplit_agree (items : List SplitItem) {e f : Env} (h : EnvAgree e f) :
    (takeSplit items e).1 = (takeSplit items f).1
    ∧ EnvAgree (takeSplit items e).2 (takeSplit items f).2 := by
  obtain ⟨h1, h2, h3⟩ := h
  unfold takeSplit
  rw [h2, h3]
  cases hf : f.splitResponses <;> simp [EnvAgree, h1, h3]

theorem takeFetch_agree {e f : Env} (h : EnvAgree e f) :
    (takeFetch e).1 = (takeFetch f).1 ∧ EnvAgree (takeFetch e).2 (takeFetch f).2 := by
  obtain ⟨h1, h2, h3⟩ := h
  unfold takeFetch
  rw [h1]
  cases hf : f.fetches <;> simp [EnvAgree, h1, h2, h3]

theorem envAgree_trans {a b c : Env} (h1 : EnvAgree a b) (h2 : EnvAgree b c) :
    EnvAgree a c :=
  ⟨h1.1.trans h2.1, h1.2.1.trans h2.2.1, h1.2.2.trans h2.2.2⟩

theorem envAgree_symm {a b : Env} (h : EnvAgree a b) : EnvAgree b a :=
  ⟨h.1.symm, h.2.1.symm, h.2.2.symm⟩

theorem envAgree_refl (a : Env) : EnvAgree a a := ⟨rfl, rfl, rfl⟩

theorem callAddTag_agree (oid : Option String) {e f : Env} (h : EnvAgree e f) :
    EnvAgree (callAddTag oid e).2 (callAddTag oid f).2 :=
  envAgree_trans (callAddTag_envAgree oid e)
    (envAgree_trans h (envAgree_symm (callAddTag_envAgree oid f)))

/-! ## Orchestrator: the tag list only ever grows -/

theorem processGroupsA_tags_extends (order_id : Option String) :
    ∀ (groups : LocationGroups) (res : Results) (env : Env),
      ∃ t, (processGroupsA order_id groups res env).1.tags_added = res.tags_added ++ t := by
  intro groups
  induction groups with
  | nil =>
    intro res env
    exact ⟨[], by simp [processGroupsA]⟩
  | cons g rest ih =>
    obtain ⟨loc, items⟩ := g
    intro res env
    cases he : items.isEmpty with
    | true =>
      have h := ih res env
      simpa [processGroupsA, he] using h
    | false =>
      rw [processGroupsA]
      simp only [he, Bool.false_eq_true, if_false]
      cases hs : (takeSplit items env).1.1 with
      | none =>
        exact ⟨[], by simp⟩
      | some nid =>
        cases hf : (takeFetch (callAddTag order_id (takeSplit items env).2).2).1 with
        | none =>
          cases ht : (callAddTag order_id (takeSplit items env).2).1 with
          | true => exact ⟨[get_location_tag loc], by simp [ht, hf]⟩
          | false => exact ⟨[], by simp [ht, hf]⟩
        | some d =>
          cases ht : (callAddTag order_id (takeSplit items env).2).1 with
          | true =>
            obtain ⟨t2, ht2⟩ := ih _ _
            refine ⟨[get_location_tag loc] ++ t2, ?_⟩
            simp only [ht, hf, if_true]
            rw [ht2]
            simp [List.append_assoc]
          | false =>
            obtain ⟨t2, ht2⟩ := ih _ _
            refine ⟨t2, ?_⟩
            simp only [ht, hf, if_false]
            rw [ht2]
            simp

theorem processGroupsB_tags_extends (order_id : Option String) :
    ∀ (groups : LocationGroups) (res : Results) (env : Env),
      ∃ t, (processGroupsB order_id groups res env).1.tags_added = res.tags_added ++ t := by
  intro groups
  induction groups with
  | nil =>
    intro res env
    exact ⟨[], by simp [processGroupsB]⟩
  | cons g rest ih =>
    obtain ⟨loc, items⟩ := g
    intro res env
    cases he : items.isEmpty with
    | true =>
      have h := ih res env
      simpa [processGroupsB, he] using h
    | false =>
      rw [processGroupsB]
      simp only [he, Bool.false_eq_true, if_false]
      cases hs : (takeSplit items env).1.1 with
      | none =>
        exact ⟨[], by simp⟩
      | some nid =>
        cases hf : (takeFetch (callAddTag order_id (takeSplit items env).2).2).1 with
        | none =>
          cases ht : (callAddTag order_id (takeSplit items env).2).1 with
          | true => exact ⟨[get_location_tag loc], by simp [ht, hf]⟩
          | false => exact ⟨[], by simp [ht, hf]⟩
        | some d =>
          cases ht : (callAddTag order_id (takeSplit items env).2).1 with
          | true =>
            obtain ⟨t2, ht2⟩ := ih _ _
            refine ⟨[get_location_tag loc] ++ t2, ?_⟩
            simp only [ht, hf, if_true]
            rw [ht2]
            simp [List.append_assoc]
          | false =>
            obtain ⟨t2, ht2⟩ := ih _ _
            refine ⟨t2, ?_⟩
            simp only [ht, hf, if_false]
            rw [ht2]
            simp

theorem branchAStep2_tags_extends (order_id : Option String) (c : Categories)
    (fd0 : Option OrderDetails) (res : Results) (env : Env) :
    ∃ t, (branchAStep2 order_id c fd0 res env).1.tags_added = res.tags_added ++ t := by
  cases ha : allItemsAtRooftopshop c with
  | true => exact ⟨[], by simp [branchAStep2, ha]⟩
  | false =>
    cases fd0 with
    | some d =>
      obtain ⟨t, ht⟩ := processGroupsA_tags_extends order_id _ res env
      exact ⟨t, by simpa [branchAStep2, ha, branchAStep2Go] using ht⟩
    | none =>
      cases hf : (takeFetch env).1 with
      | none =>
        exact ⟨[], by simp [branchAStep2, ha, hf]⟩
      | some d =>
        obtain ⟨t, ht⟩ := processGroupsA_tags_extends order_id _ res (takeFetch env).2
        exact ⟨t, by simpa [branchAStep2, ha, hf, branchAStep2Go] using ht⟩

theorem branchA_tags_extends (order_id : Option String) (c : Categories)
    (res : Results) (env : Env) :
    ∃ t, (branchA order_id c res env).1.tags_added = res.tags_added ++ t := by
  cases he : c.length_rooftopshop.isEmpty with
  | true =>
    obtain ⟨t, ht⟩ := branchAStep2_tags_extends order_id c none res env
    exact ⟨t, by simpa [branchA, he] using ht⟩
  | false =>
    rw [branchA]
    simp only [he, Bool.false_eq_true, if_false]
    cases hs : (takeSplit (c.length_rooftopshop.map (fun i => (⟨i.id, i.quantity⟩ : SplitItem))
        ++ c.daktrim_koppelstukje_rooftopshop.map (fun i => (⟨i.id, i.quantity⟩ : SplitItem))) env).1.1 with
    | none => exact ⟨[], by simp⟩
    | some nid =>
      cases hf : (takeFetch (callAddTag order_id
          (takeSplit (c.length_rooftopshop.map (fun i => (⟨i.id, i.quantity⟩ : SplitItem))
            ++ c.daktrim_koppelstukje_rooftopshop.map (fun i => (⟨i.id, i.quantity⟩ : SplitItem)))
            env).2).2).1 with
      | none =>
        cases ht : (callAddTag order_id
            (takeSplit (c.length_rooftopshop.map (fun i => (⟨i.id, i.quantity⟩ : SplitItem))
              ++ c.daktrim_koppelstukje_rooftopshop.map (fun i => (⟨i.id, i.quantity⟩ : SplitItem)))
              env).2).1 with
        | true => exact ⟨["daktrimFulfillment"], by simp [ht, hf]⟩
        | false => exact ⟨[], by simp [ht, hf]⟩
      | some d =>
        cases ht : (callAddTag order_id
            (takeSplit (c.length_rooftopshop.map (fun i => (⟨i.id, i.quantity⟩ : SplitItem))
              ++ c.daktrim_koppelstukje_rooftopshop.map (fun i => (⟨i.id, i.quantity⟩ : SplitItem)))
              env).2).1 with
        | true =>
          obtain ⟨t2, ht2⟩ := branchAStep2_tags_extends order_id c (some d) _ _
          refine ⟨["daktrimFulfillment"] ++ t2, ?_⟩
          simp only [ht, hf, if_true]
          rw [ht2]
          simp [List.append_assoc]
        | false =>
          obtain ⟨t2, ht2⟩ := branchAStep2_tags_extends order_id c (some d) _ _
          refine ⟨t2, ?_⟩
          simp only [ht, hf, if_false]
          rw [ht2]
          simp

theorem branchB_tags_extends (order_id : Option String) (c : Categories)
    (res : Results) (env : Env) :
    ∃ t, (branchB order_id c res env).1.tags_added = res.tags_added ++ t := by
  cases ha : allNonLengthAtRooftopshop c with
  | true => exact ⟨[], by simp [branchB, ha]⟩
  | false =>
    cases hf : (takeFetch env).1 with
    | none => exact ⟨[], by simp [branchB, ha, hf]⟩
    | some d =>
      obtain ⟨t, ht⟩ := processGroupsB_tags_extends order_id _ res (takeFetch env).2
      exact ⟨t, by simpa [branchB, ha, hf] using ht⟩

/-! ## Orchestrator: pre-step tagging -/

theorem collect_ne_nil (c : Categories) (h : collectExternalLocations c ≠ []) :
    0 < c.length_external.length ∨ 0 < c.non_length_external.length := by
  by_contra hcon
  push_neg at hcon
  obtain ⟨h1, h2⟩ := hcon
  have e1 : c.length_external = [] := List.length_eq_zero.mp (by omega)
  have e2 : c.non_length_external = [] := List.length_eq_zero.mp (by omega)
  apply h
  simp [collectExternalLocations, e1, e2]

theorem preStepDaktrim_envAgree (oid : Option String) (c : Categories) (res : Results)
    (env : Env) : EnvAgree (preStepDaktrim oid c res env).2 env := by
  by_cases h1 : (hasLengthItems c = true ∧ c.length_external.length = 0)
  · rw [preStepDaktrim, if_pos h1]
    exact callAddTag_envAgree oid env
  · rw [preStepDaktrim, if_neg h1]
    exact envAgree_refl env

theorem preStepExternal_envAgree (oid : Option String) (c : Categories) (res : Results)
    (env : Env) : EnvAgree (preStepExternal oid c res env).2 env := by
  by_cases h2 : (0 < c.length_external.length ∨ 0 < c.non_length_external.length)
  · rw [preStepExternal, if_pos h2]
    cases hc : collectExternalLocations c with
    | nil =>
      simp only [hc]
      exact envAgree_refl env
    | cons loc t =>
      cases t with
      | nil =>
        simp only [hc]
        by_cases h3 : (c.length_rooftopshop.length + c.non_length_rooftopshop.length
            + c.daktrim_koppelstukje_rooftopshop.length = 0)
        · rw [if_pos h3]
          exact callAddTag_envAgree oid env
        · rw [if_neg h3]
          exact envAgree_refl env
      | cons b t2 =>
        simp only [hc]
        exact envAgree_refl env
  · rw [preStepExternal, if_neg h2]
    exact envAgree_refl env

theorem preStep_envAgree (oid : Option String) (c : Categories) (res : Results) (env : Env) :
    EnvAgree (preStep oid c res env).2 env :=
  envAgree_trans
    (preStepExternal_envAgree oid c (preStepDaktrim oid c res env).1
      (preStepDaktrim oid c res env).2)
    (preStepDaktrim_envAgree oid c res env)

/-- With exactly one external location, no items at home, a truthy order id
and a succeeding tag call, the pre-step adds precisely that location's tag. -/
theorem preStep_single_external (oid : String) (c : Categories) (res : Results) (env : Env)
    (loc : String) (tr : List Bool)
    (hlr : c.length_rooftopshop = []) (hnlr : c.non_length_rooftopshop = [])
    (hdk : c.daktrim_koppelstukje_rooftopshop = [])
    (hcol : collectExternalLocations c = [loc])
    (hoid : oid ≠ "") (htag : env.tagResponses = true :: tr) :
    preStep (some oid) c res env
      = ({ res with tags_added := res.tags_added ++ [get_location_tag loc] },
         { env with tagResponses := tr }) := by
  have hbuckets : 0 < c.length_external.length ∨ 0 < c.non_length_external.length := by
    apply collect_ne_nil c
    rw [hcol]
    simp
  have h1 : ¬(hasLengthItems c = true ∧ c.length_external.length = 0) := by
    rintro ⟨hh, hz⟩
    rw [hasLengthItems, hlr] at hh
    simp [hz] at hh
  have h3 : c.length_rooftopshop.length + c.non_length_rooftopshop.length
      + c.daktrim_koppelstukje_rooftopshop.length = 0 := by
    simp [hlr, hnlr, hdk]
  have hd : preStepDaktrim (some oid) c res env = (res, env) := by
    rw [preStepDaktrim, if_neg h1]
  have he : preStepExternal (some oid) c res env
      = ({ res with tags_added := res.tags_added ++ [get_location_tag loc] },
         { env with tagResponses := tr }) := by
    rw [preStepExternal, if_pos hbuckets]
    simp only [hcol]
    rw [if_pos h3]
    simp [callAddTag, hoid, takeTag, htag]
  simp only [preStep, hd]
  exact he

/-- C3 counterexample: in the scenario-2 run (two non-length items, both only
at Compri Aluminium, every remote call succeeding), the orchestrator does
issue a split mutation and the result's splits list is non-empty — the claim
demands no split mutation and an empty splits list. -/
theorem c3_counterexample :
    (process_fulfillment_according_to_decision_tree (some "gid:o1")
        (categorize_items orderC3w) envC3w).1.splits ≠ []
    ∧ (process_fulfillment_according_to_decision_tree (some "gid:o1")
        (categorize_items orderC3w) envC3w).2.splitLog ≠ []
    ∧ "compriFulfillment"
        ∈ (process_fulfillment_according_to_decision_tree (some "gid:o1")
            (categorize_items orderC3w) envC3w).1.tags_added := by
  refine ⟨?_, ?_, ?_⟩ <;> decide

/-- C3 (amended): with exactly one distinct external location and no items at
home, the orchestrator tags the parent order with that location's tag — but
splitting is not suppressed: the run still walks the decision tree, and in the
all-success scenario-2 run both the pre-step tag and the external split (with
its own second tag) are present, with `success=true`. -/
theorem c3_single_external_location_tagging :
    (∀ (c : Categories) (oid : String) (env : Env) (loc : String) (tr : List Bool),
      c.length_rooftopshop = [] → c.non_length_rooftopshop = [] →
      c.daktrim_koppelstukje_rooftopshop = [] →
      collectExternalLocations c = [loc] →
      oid ≠ "" → env.tagResponses = true :: tr →
      get_location_tag loc
        ∈ (process_fulfillment_according_to_decision_tree (some oid) c env).1.tags_added)
    ∧ (process_fulfillment_according_to_decision_tree (some "gid:o1")
          (categorize_items orderC3w) envC3w).1
        = ⟨true,
           [⟨"external_Compri Aluminium", "gid:fo2", "OPEN",
             [⟨"li1", 1⟩, ⟨"li2", 1⟩], some "Compri Aluminium"⟩],
           ["compriFulfillment", "compriFulfillment"], none⟩ := by
  constructor
  · intro c oid env loc tr hlr hnlr hdk hcol hoid htag
    simp only [process_fulfillment_according_to_decision_tree]
    rw [preStep_single_external oid c ⟨true, [], [], none⟩ env loc tr hlr hnlr hdk hcol
      hoid htag]
    cases hb : hasLengthItems c with
    | true =>
      simp only [hb, if_true]
      obtain ⟨t, ht⟩ := branchA_tags_extends (some oid) c _ _
      rw [ht]
      simp
    | false =>
      simp only [hb, Bool.false_eq_true, if_false]
      obtain ⟨t, ht⟩ := branchB_tags_extends (some oid) c _ _
      rw [ht]
      simp
  · decide

/-- Witness for C3 on the scenario-2 inputs. -/
theorem c3_single_external_location_tagging_witness :
    get_location_tag "Compri Aluminium"
      ∈ (process_fulfillment_according_to_decision_tree (some "gid:o1")
          (categorize_items orderC3w) envC3w).1.tags_added :=
  c3_single_external_location_tagging.1 (categorize_items orderC3w) "gid:o1" envC3w
    "Compri Aluminium" [true] (by decide) (by decide) (by decide) (by decide)
    (by decide) rfl

/-- C10: on an order with one length item at home (and nothing else), with
every remote call succeeding, `tagsAdded` holds `daktrimFulfillment` twice —
once from the pre-step and once after the length-at-home split — so the list
is not duplicate-free. -/
theorem c10_duplicate_daktrim_tag :
    (process_fulfillment_according_to_decision_tree (some "gid:o1")
        (categorize_items orderC10w) envC10w).1.tags_added
      = ["daktrimFulfillment", "daktrimFulfillment"]
    ∧ ¬(process_fulfillment_according_to_decision_tree (some "gid:o1")
        (categorize_items orderC10w) envC10w).1.tags_added.Nodup
    ∧ (process_fulfillment_according_to_decision_tree (some "gid:o1")
        (categorize_items orderC10w) envC10w).1.success = true := by
  refine ⟨?_, ?_, ?_⟩ <;> decide

/-! ## Orchestrator: abort on the first hard split failure -/

/-- C5: when a split call returns no new order id, the orchestrator stops:
in branch A's length-at-home step and in both location-group loops, the
result carries `success=false` and the failure message, the splits and tags
committed before the failure are preserved unchanged, and the failing call is
the last split response consumed — no further split mutation is issued even
when more groups remain. -/
theorem c5_split_failure_aborts :
    (∀ (order_id : Option String) (c : Categories) (res : Results) (env : Env)
       (msg : String) (rest : List (Option String × String)),
      c.length_rooftopshop.isEmpty = false →
      env.splitResponses = (none, msg) :: rest →
      (branchA order_id c res env).1
        = { res with
            success := false
            error := some ("Failed to split length items at Rooftopshop: " ++ msg) }
      ∧ (branchA order_id c res env).2.splitResponses = rest)
    ∧ (∀ (order_id : Option String) (loc : String) (items : List SplitItem)
         (t : LocationGroups) (res : Results) (env : Env) (msg : String)
         (rest : List (Option String × String)),
        items.isEmpty = false →
        env.splitResponses = (none, msg) :: rest →
        (processGroupsA order_id ((loc, items) :: t) res env).1
          = { res with
              success := false
              error := some ("Failed to split items for " ++ loc ++ ": " ++ msg) }
        ∧ (processGroupsA order_id ((loc, items) :: t) res env).2.splitResponses = rest)
    ∧ (∀ (order_id : Option String) (loc : String) (items : List SplitItem)
         (t : LocationGroups) (res : Results) (env : Env) (msg : String)
         (rest : List (Option String × String)),
        items.isEmpty = false →
        env.splitResponses = (none, msg) :: rest →
        (processGroupsB order_id ((loc, items) :: t) res env).1
          = { res with
              success := false
              error := some ("Failed to split non-length items for " ++ loc ++ ": " ++ msg) }
        ∧ (processGroupsB order_id ((loc, items) :: t) res env).2.splitResponses = rest) := by
  refine ⟨?_, ?_, ?_⟩
  · intro order_id c res env msg rest he henv
    have hsplit : ∀ items : List SplitItem, takeSplit items env
        = ((none, msg), { env with splitResponses := rest, splitLog := env.splitLog ++ [items] }) := by
      intro items
      simp [takeSplit, henv]
    rw [branchA]
    simp only [he, Bool.false_eq_true, if_false, hsplit]
    exact ⟨trivial, trivial⟩
  · intro order_id loc items t res env msg rest he henv
    have hsplit : takeSplit items env
        = ((none, msg), { env with splitResponses := rest, splitLog := env.splitLog ++ [items] }) := by
      simp [takeSplit, henv]
    rw [processGroupsA]
    simp only [he, Bool.false_eq_true, if_false, hsplit]
    exact ⟨trivial, trivial⟩
  · intro order_id loc items t res env msg rest he henv
    have hsplit : takeSplit items env
        = ((none, msg), { env with splitResponses := rest, splitLog := env.splitLog ++ [items] }) := by
      simp [takeSplit, henv]
    rw [processGroupsB]
    simp only [he, Bool.false_eq_true, if_false, hsplit]
    exact ⟨trivial, trivial⟩

/-- Witness for C5: a failed split aborts each of the three split sites on
concrete mid-run states, preserving the previously committed split record and
tag and consuming exactly the one failing split response. -/
theorem c5_split_failure_aborts_witness :
    ((branchA (some "gid:o1") (categorize_items orderC10w)
        ⟨true, [], ["daktrimFulfillment"], none⟩
        ⟨[], [(none, "User error: cannot split")], [], []⟩).1
      = ⟨false, [], ["daktrimFulfillment"],
         some "Failed to split length items at Rooftopshop: User error: cannot split"⟩
     ∧ (branchA (some "gid:o1") (categorize_items orderC10w)
        ⟨true, [], ["daktrimFulfillment"], none⟩
        ⟨[], [(none, "User error: cannot split")], [], []⟩).2.splitResponses = [])
    ∧ ((processGroupsA (some "gid:o1")
        [("Compri Aluminium", [⟨"li1", 1⟩]), ("Redfox EPDM", [⟨"li2", 1⟩])]
        ⟨true, [⟨"length_rooftopshop_with_koppelstukje", "gid:fo2", "OPEN", [⟨"li0", 1⟩], none⟩],
         ["daktrimFulfillment"], none⟩
        ⟨[], [(none, "User error")], [], []⟩).1
      = ⟨false, [⟨"length_rooftopshop_with_koppelstukje", "gid:fo2", "OPEN", [⟨"li0", 1⟩], none⟩],
         ["daktrimFulfillment"],
         some "Failed to split items for Compri Aluminium: User error"⟩
     ∧ (processGroupsA (some "gid:o1")
        [("Compri Aluminium", [⟨"li1", 1⟩]), ("Redfox EPDM", [⟨"li2", 1⟩])]
        ⟨true, [⟨"length_rooftopshop_with_koppelstukje", "gid:fo2", "OPEN", [⟨"li0", 1⟩], none⟩],
         ["daktrimFulfillment"], none⟩
        ⟨[], [(none, "User error")], [], []⟩).2.splitResponses = [])
    ∧ (processGroupsB (some "gid:o1") [("Redfox EPDM", [⟨"li2", 1⟩])]
        ⟨true, [], ["compriFulfillment"], none⟩
        ⟨[], [(none, "User error")], [], []⟩).1
      = ⟨false, [], ["compriFulfillment"],
         some "Failed to split non-length items for Redfox EPDM: User error"⟩ := by
  refine ⟨?_, ?_, ?_⟩
  · exact c5_split_failure_aborts.1 (some "gid:o1") (categorize_items orderC10w)
      ⟨true, [], ["daktrimFulfillment"], none⟩
      ⟨[], [(none, "User error: cannot split")], [], []⟩
      "User error: cannot split" [] (by decide) rfl
  · exact c5_split_failure_aborts.2.1 (some "gid:o1") "Compri Aluminium" [⟨"li1", 1⟩]
      [("Redfox EPDM", [⟨"li2", 1⟩])]
      ⟨true, [⟨"length_rooftopshop_with_koppelstukje", "gid:fo2", "OPEN", [⟨"li0", 1⟩], none⟩],
       ["daktrimFulfillment"], none⟩
      ⟨[], [(none, "User error")], [], []⟩ "User error" [] (by decide) rfl
  · exact (c5_split_failure_aborts.2.2 (some "gid:o1") "Redfox EPDM" [⟨"li2", 1⟩] []
      ⟨true, [], ["compriFulfillment"], none⟩
      ⟨[], [(none, "User error")], [], []⟩ "User error" [] (by decide) rfl).1

/-! ## Orchestrator: which line items are ever sent to a split mutation -/

theorem takeSplit_splitLog (items : List SplitItem) (env : Env) :
    (takeSplit items env).2.splitLog = env.splitLog ++ [items] := by
  cases h : env.splitResponses <;> simp [takeSplit, h]

theorem processGroupsA_splitLog (order_id : Option String) :
    ∀ (groups : LocationGroups) (res : Results) (env : Env)
      (sent : List SplitItem),
      sent ∈ (processGroupsA order_id groups res env).2.splitLog →
      sent ∈ env.splitLog ∨ ∃ p ∈ groups, sent = p.2 := by
  intro groups
  induction groups with
  | nil =>
    intro res env sent h
    exact Or.inl (by simpa [processGroupsA] using h)
  | cons g rest ih =>
    obtain ⟨loc, items⟩ := g
    intro res env sent h
    cases he : items.isEmpty with
    | true =>
      rw [processGroupsA] at h
      simp only [he, if_true] at h
      rcases ih res env sent h with h1 | ⟨p, hp, hs⟩
      · exact Or.inl h1
      · exact Or.inr ⟨p, List.mem_cons_of_mem _ hp, hs⟩
    | false =>
      rw [processGroupsA] at h
      simp only [he, Bool.false_eq_true, if_false] at h
      have hlog1 : (takeSplit items env).2.splitLog = env.splitLog ++ [items] :=
        takeSplit_splitLog items env
      cases hs : (takeSplit items env).1.1 with
      | none =>
        rw [hs] at h
        simp only at h
        rw [hlog1] at h
        rcases List.mem_append.mp h with h1 | h1
        · exact Or.inl h1
        · exact Or.inr ⟨(loc, items), List.mem_cons_self _ _, by simpa using h1⟩
      | some nid =>
        rw [hs] at h
        simp only at h
        have hlog2 : (callAddTag order_id (takeSplit items env).2).2.splitLog
            = env.splitLog ++ [items] :=
          ((callAddTag_envAgree order_id (takeSplit items env).2).2.2).trans hlog1
        have hlog3 : (takeFetch (callAddTag order_id (takeSplit items env).2).2).2.splitLog
            = env.splitLog ++ [items] :=
          (takeFetch_splitLog _).trans hlog2
        cases hf : (takeFetch (callAddTag order_id (takeSplit items env).2).2).1 with
        | none =>
          rw [hf] at h
          simp only at h
          rw [hlog3] at h
          rcases List.mem_append.mp h with h1 | h1
          · exact Or.inl h1
          · exact Or.inr ⟨(loc, items), List.mem_cons_self _ _, by simpa using h1⟩
        | some d =>
          rw [hf] at h
          simp only at h
          rcases ih _ _ sent h with h1 | ⟨p, hp, hp2⟩
          · rw [hlog3] at h1
            rcases List.mem_append.mp h1 with h2 | h2
            · exact Or.inl h2
            · exact Or.inr ⟨(loc, items), List.mem_cons_self _ _, by simpa using h2⟩
          · exact Or.inr ⟨p, List.mem_cons_of_mem _ hp, hp2⟩

theorem addToGroup_entry (loc : String) (x : SplitItem) :
    ∀ (g : LocationGroups) (p : String × List SplitItem) (e : SplitItem),
      p ∈ addToGroup g loc x → e ∈ p.2 → (∃ q ∈ g, e ∈ q.2) ∨ e = x := by
  intro g
  induction g with
  | nil =>
    intro p e hp he
    simp only [addToGroup, List.mem_singleton] at hp
    subst hp
    simp only [List.mem_singleton] at he
    exact Or.inr he
  | cons h t ih =>
    obtain ⟨l, items⟩ := h
    intro p e hp he
    by_cases hl : l = loc
    · rw [addToGroup] at hp
      simp only [hl, if_true] at hp
      rcases List.mem_cons.mp hp with rfl | hp2
      · simp only [List.mem_append, List.mem_singleton] at he
        rcases he with he | he
        · exact Or.inl ⟨(l, items), List.mem_cons_self _ _, he⟩
        · exact Or.inr he
      · exact Or.inl ⟨p, List.mem_cons_of_mem _ hp2, he⟩
    · rw [addToGroup] at hp
      simp only [hl, if_false] at hp
      rcases List.mem_cons.mp hp with rfl | hp2
      · exact Or.inl ⟨(l, items), List.mem_cons_self _ _, he⟩
      · rcases ih p e hp2 he with ⟨q, hq, he2⟩ | he2
        · exact Or.inl ⟨q, List.mem_cons_of_mem _ hq, he2⟩
        · exact Or.inr he2

theorem addExternalItem_entry (remaining : List LineItem) (item : ItemDetails) :
    ∀ (g : LocationGroups) (p : String × List SplitItem) (e : SplitItem),
      p ∈ addExternalItem remaining g item → e ∈ p.2 →
      (∃ q ∈ g, e ∈ q.2) ∨ e = ⟨item.id, item.quantity⟩ := by
  intro g p e hp he
  rcases hli : lookupLineItem remaining item.id with _ | li
  · rw [addExternalItem, hli] at hp
    exact Or.inl ⟨p, hp, he⟩
  · rcases hf : firstExternalLocation li.available_locations with _ | l
    · by_cases hemp : li.available_locations.isEmpty
      · rw [addExternalItem, hli] at hp
        simp only [hf, hemp, if_true] at hp
        exact Or.inl ⟨p, hp, he⟩
      · rw [addExternalItem, hli] at hp
        simp only [hf, hemp, if_false] at hp
        exact addToGroup_entry "unknown" _ g p e hp he
    · rw [addExternalItem, hli] at hp
      simp only [hf] at hp
      exact addToGroup_entry l _ g p e hp he

theorem buildGroups_entry_ids (remaining : List LineItem) :
    ∀ (bucket : List ItemDetails) (g : LocationGroups) (p : String × List SplitItem)
      (e : SplitItem),
      p ∈ buildGroupsFromBucket remaining g bucket → e ∈ p.2 →
      (∃ q ∈ g, e ∈ q.2) ∨ e.id ∈ bucket.map (fun i => i.id) := by
  intro bucket
  induction bucket with
  | nil =>
    intro g p e hp he
    exact Or.inl ⟨p, by simpa [buildGroupsFromBucket] using hp, he⟩
  | cons x t ih =>
    intro g p e hp he
    rw [buildGroupsFromBucket] at hp
    simp only [List.foldl_cons] at hp
    rcases ih (addExternalItem remaining g x) p e hp he with ⟨q, hq, he2⟩ | he2
    · rcases addExternalItem_entry remaining x g q e hq he2 with ⟨q2, hq2, he3⟩ | he3
      · exact Or.inl ⟨q2, hq2, he3⟩
      · refine Or.inr ?_
        rw [he3]
        simp
    · refine Or.inr ?_
      simp only [List.map_cons, List.mem_cons]
      exact Or.inr he2

/-- C9: for an order with length items but an empty length-at-home bucket,
no split mutation issued by the orchestrator (successful or not, as recorded
in the split-call log) contains the line id of a coupling-piece-at-home item. -/
theorem c9_coupling_piece_only_with_length_at_home
    (o : OrderDetails) (order_id : Option String) (env : Env)
    (hnd : (o.line_items.map (fun x => x.fulfillment_order_line_item_id)).Nodup)
    (hlen : hasLengthItems (categorize_items o) = true)
    (hempty : (categorize_items o).length_rooftopshop = [])
    (hlog : env.splitLog = []) :
    ∀ sent ∈ (process_fulfillment_according_to_decision_tree order_id
        (categorize_items o) env).2.splitLog,
      ∀ e ∈ sent,
        e.id ∉ (categorize_items o).daktrim_koppelstukje_rooftopshop.map (fun d => d.id) := by
  intro sent hsent e he hmem
  set c := categorize_items o with hcdef
  have hleids : c.length_external.map (fun i => i.id)
      = (o.line_items.filter isLengthExternal).map
          (fun x => x.fulfillment_order_line_item_id) := by
    rw [hcdef, categorize_items_eq o]
    exact bucketIds_eq o.line_items isLengthExternal
  have hnleids : c.non_length_external.map (fun i => i.id)
      = (o.line_items.filter isNonLengthExternal).map
          (fun x => x.fulfillment_order_line_item_id) := by
    rw [hcdef, categorize_items_eq o]
    exact bucketIds_eq o.line_items isNonLengthExternal
  have hdakids : c.daktrim_koppelstukje_rooftopshop.map (fun d => d.id)
      = (o.line_items.filter isKoppelstukjeAtHome).map
          (fun x => x.fulfillment_order_line_item_id) := by
    rw [hcdef, categorize_items_eq o]
    exact bucketIds_eq o.line_items isKoppelstukjeAtHome
  have hdisj1 := bucketIds_disjoint o.line_items isLengthExternal isKoppelstukjeAtHome hnd
    (fun x => (bucketPredsExclusive x).2.2.2.2.2.2.2.2.1)
  have hdisj2 := bucketIds_disjoint o.line_items isNonLengthExternal isKoppelstukjeAtHome hnd
    (fun x => (bucketPredsExclusive x).2.2.2.2.2.2.2.2.2)
  rw [hdakids] at hmem
  have hb : process_fulfillment_according_to_decision_tree order_id c env
      = branchA order_id c (preStep order_id c ⟨true, [], [], none⟩ env).1
          (preStep order_id c ⟨true, [], [], none⟩ env).2 := by
    simp only [process_fulfillment_according_to_decision_tree, hlen, if_true]
  rw [hb] at hsent
  have hisempty : c.length_rooftopshop.isEmpty = true := by
    rw [hempty]
    rfl
  rw [branchA] at hsent
  simp only [hisempty, if_true] at hsent
  have hext : 0 < c.length_external.length := by
    rw [hasLengthItems, hempty] at hlen
    simpa using hlen
  have hall : allItemsAtRooftopshop c = false := by
    rw [allItemsAtRooftopshop]
    simp only [decide_eq_false_iff_not]
    omega
  rw [branchAStep2] at hsent
  simp only [hall, Bool.false_eq_true, if_false] at hsent
  set envp := (preStep order_id c ⟨true, [], [], none⟩ env).2 with henvp
  have hplog : envp.splitLog = [] :=
    ((preStep_envAgree order_id c ⟨true, [], [], none⟩ env).2.2).trans hlog
  cases hfet : (takeFetch envp).1 with
  | none =>
    rw [hfet] at hsent
    simp only at hsent
    rw [takeFetch_splitLog, hplog] at hsent
    exact absurd hsent (List.not_mem_nil sent)
  | some d =>
    rw [hfet] at hsent
    simp only at hsent
    rw [branchAStep2Go] at hsent
    have hflog : (takeFetch envp).2.splitLog = [] :=
      (takeFetch_splitLog envp).trans hplog
    rcases processGroupsA_splitLog order_id _ _ _ sent hsent with h1 | ⟨p, hp, hs⟩
    · rw [hflog] at h1
      exact absurd h1 (List.not_mem_nil sent)
    · subst hs
      rcases buildGroups_entry_ids d.line_items c.non_length_external _ p e hp he
        with ⟨q, hq, he2⟩ | hid
      · rcases buildGroups_entry_ids d.line_items c.length_external [] q e hq he2
          with ⟨q2, hq2, _⟩ | hid2
        · exact absurd hq2 (List.not_mem_nil q2)
        · rw [hleids] at hid2
          exact hdisj1 hid2 hmem
      · rw [hnleids] at hid
        exact hdisj2 hid hmem

/-- Witness for C9 on a concrete order whose coupling piece is at home and
whose only length item is external: the run issues one split (logged) and no
logged split call carries the coupling piece's id. -/
theorem c9_coupling_piece_only_with_length_at_home_witness :
    (∀ sent ∈ (process_fulfillment_according_to_decision_tree (some "gid:o1")
        (categorize_items orderC9w) envC9w).2.splitLog,
      ∀ e ∈ sent,
        e.id ∉ (categorize_items orderC9w).daktrim_koppelstukje_rooftopshop.map
          (fun d => d.id))
    ∧ (process_fulfillment_according_to_decision_tree (some "gid:o1")
        (categorize_items orderC9w) envC9w).2.splitLog = [[⟨"lx1", 1⟩]] := by
  constructor
  · exact c9_coupling_piece_only_with_length_at_home orderC9w (some "gid:o1") envC9w
      (by decide) (by decide) (by decide) rfl
  · decide

/-! ## Orchestrator: tag outcomes never influence control flow -/

theorem processGroupsA_agree (order_id : Option String) :
    ∀ (groups : LocationGroups) {res res' : Results} {env env' : Env},
      ResultsAgree res res' → EnvAgree env env' →
      ResultsAgree (processGroupsA order_id groups res env).1
          (processGroupsA order_id groups res' env').1
      ∧ EnvAgree (processGroupsA order_id groups res env).2
          (processGroupsA order_id groups res' env').2 := by
  intro groups
  induction groups with
  | nil =>
    intro res res' env env' hr he
    simpa [processGroupsA] using ⟨hr, he⟩
  | cons g rest ih =>
    obtain ⟨loc, items⟩ := g
    intro res res' env env' hr he
    cases hemp : items.isEmpty with
    | true =>
      have h := ih hr he
      simpa [processGroupsA, hemp] using h
    | false =>
      rw [processGroupsA, processGroupsA]
      simp only [hemp, Bool.false_eq_true, if_false]
      have hsp := takeSplit_agree items he
      cases hs : (takeSplit items env).1.1 with
      | none =>
        have hs2 : (takeSplit items env').1.1 = none := by
          rw [← hsp.1]
          exact hs
        rw [hs2]
        simp only
        refine ⟨⟨rfl, ?_, ?_⟩, hsp.2⟩
        · rw [hsp.1]
        · simpa using hr.2.2
      | some nid =>
        have hs2 : (takeSplit items env').1.1 = some nid := by
          rw [← hsp.1]
          exact hs
        rw [hs2]
        simp only
        have hca := callAddTag_agree order_id hsp.2
        have hfa := takeFetch_agree hca
        cases ht : (callAddTag order_id (takeSplit items env).2).1 <;>
          cases ht' : (callAddTag order_id (takeSplit items env').2).1 <;>
            simp only [ht, ht', Bool.false_eq_true, if_true, if_false] <;>
          (cases hf : (takeFetch (callAddTag order_id (takeSplit items env).2).2).1 with
           | none =>
             have hf2 : (takeFetch (callAddTag order_id (takeSplit items env').2).2).1 = none := by
               rw [← hfa.1]
               exact hf
             rw [hf2]
             simp only
             exact ⟨⟨rfl, rfl, by simp [hr.2.2, hsp.1]⟩, hfa.2⟩
           | some d =>
             have hf2 : (takeFetch (callAddTag order_id (takeSplit items env').2).2).1 = some d := by
               rw [← hfa.1]
               exact hf
             rw [hf2]
             simp only
             exact ih ⟨hr.1, hr.2.1, by simp [hr.2.2, hsp.1]⟩ hfa.2)

theorem processGroupsB_agree (order_id : Option String) :
    ∀ (groups : LocationGroups) {res res' : Results} {env env' : Env},
      ResultsAgree res res' → EnvAgree env env' →
      ResultsAgree (processGroupsB order_id groups res env).1
          (processGroupsB order_id groups res' env').1
      ∧ EnvAgree (processGroupsB order_id groups res env).2
          (processGroupsB order_id groups res' env').2 := by
  intro groups
  induction groups with
  | nil =>
    intro res res' env env' hr he
    simpa [processGroupsB] using ⟨hr, he⟩
  | cons g rest ih =>
    obtain ⟨loc, items⟩ := g
    intro res res' env env' hr he
    cases hemp : items.isEmpty with
    | true =>
      have h := ih hr he
      simpa [processGroupsB, hemp] using h
    | false =>
      rw [processGroupsB, processGroupsB]
      simp only [hemp, Bool.false_eq_true, if_false]
      have hsp := takeSplit_agree items he
      cases hs : (takeSplit items env).1.1 with
      | none =>
        have hs2 : (takeSplit items env').1.1 = none := by
          rw [← hsp.1]
          exact hs
        rw [hs2]
        simp only
        refine ⟨⟨rfl, ?_, ?_⟩, hsp.2⟩
        · rw [hsp.1]
        · simpa using hr.2.2
      | some nid =>
        have hs2 : (takeSplit items env').1.1 = some nid := by
          rw [← hsp.1]
          exact hs
        rw [hs2]
        simp only
        have hca := callAddTag_agree order_id hsp.2
        have hfa := takeFetch_agree hca
        cases ht : (callAddTag order_id (takeSplit items env).2).1 <;>
          cases ht' : (callAddTag order_id (takeSplit items env').2).1 <;>
            simp only [ht, ht', Bool.false_eq_true, if_true, if_false] <;>
          (cases hf : (takeFetch (callAddTag order_id (takeSplit items env).2).2).1 with
           | none =>
             have hf2 : (takeFetch (callAddTag order_id (takeSplit items env').2).2).1 = none := by
               rw [← hfa.1]
               exact hf
             rw [hf2]
             simp only
             exact ⟨⟨rfl, rfl, by simp [hr.2.2, hsp.1]⟩, hfa.2⟩
           | some d =>
             have hf2 : (takeFetch (callAddTag order_id (takeSplit items env').2).2).1 = some d := by
               rw [← hfa.1]
               exact hf
             rw [hf2]
             simp only
             exact ih ⟨hr.1, hr.2.1, by simp [hr.2.2, hsp.1]⟩ hfa.2)

theorem branchAStep2_agree (order_id : Option String) (c : Categories)
    (fd0 : Option OrderDetails) {res res' : Results} {env env' : Env}
    (hr : ResultsAgree res res') (he : EnvAgree env env') :
    ResultsAgree (branchAStep2 order_id c fd0 res env).1
        (branchAStep2 order_id c fd0 res' env').1
    ∧ EnvAgree (branchAStep2 order_id c fd0 res env).2
        (branchAStep2 order_id c fd0 res' env').2 := by
  cases fd0 with
  | some d =>
    cases ha : allItemsAtRooftopshop c with
    | true =>
      rw [branchAStep2, branchAStep2]
      simp only [ha, if_true]
      exact ⟨hr, he⟩
    | false =>
      rw [branchAStep2, branchAStep2]
      simp only [ha, Bool.false_eq_true, if_false]
      exact processGroupsA_agree order_id _ hr he
  | none =>
    cases ha : allItemsAtRooftopshop c with
    | true =>
      rw [branchAStep2, branchAStep2]
      simp only [ha, if_true]
      exact ⟨hr, he⟩
    | false =>
      rw [branchAStep2, branchAStep2]
      simp only [ha, Bool.false_eq_true, if_false]
      have hfa := takeFetch_agree he
      cases hf : (takeFetch env).1 with
      | none =>
        have hf2 : (takeFetch env').1 = none := by
          rw [← hfa.1]
          exact hf
        rw [hf2]
        simp only
        exact ⟨⟨rfl, rfl, hr.2.2⟩, hfa.2⟩
      | some d =>
        have hf2 : (takeFetch env').1 = some d := by
          rw [← hfa.1]
          exact hf
        rw [hf2]
        simp only
        exact processGroupsA_agree order_id _ hr hfa.2

theorem branchA_agree (order_id : Option String) (c : Categories)
    {res res' : Results} {env env' : Env}
    (hr : ResultsAgree res res') (he : EnvAgree env env') :
    ResultsAgree (branchA order_id c res env).1 (branchA order_id c res' env').1
    ∧ EnvAgree (branchA order_id c res env).2 (branchA order_id c res' env').2 := by
  cases hemp : c.length_rooftopshop.isEmpty with
  | true =>
    rw [branchA, branchA]
    simp only [hemp, if_true]
    exact branchAStep2_agree order_id c none hr he
  | false =>
    rw [branchA, branchA]
    simp only [hemp, Bool.false_eq_true, if_false]
    have hsp := takeSplit_agree
      (c.length_rooftopshop.map (fun i => (⟨i.id, i.quantity⟩ : SplitItem))
        ++ c.daktrim_koppelstukje_rooftopshop.map (fun i => (⟨i.id, i.quantity⟩ : SplitItem))) he
    cases hs : (takeSplit (c.length_rooftopshop.map (fun i => (⟨i.id, i.quantity⟩ : SplitItem))
        ++ c.daktrim_koppelstukje_rooftopshop.map (fun i => (⟨i.id, i.quantity⟩ : SplitItem)))
        env).1.1 with
    | none =>
      have hs2 : (takeSplit (c.length_rooftopshop.map (fun i => (⟨i.id, i.quantity⟩ : SplitItem))
          ++ c.daktrim_koppelstukje_rooftopshop.map (fun i => (⟨i.id, i.quantity⟩ : SplitItem)))
          env').1.1 = none := by
        rw [← hsp.1]
        exact hs
      rw [hs2]
      simp only
      refine ⟨⟨rfl, ?_, ?_⟩, hsp.2⟩
      · rw [hsp.1]
      · simpa using hr.2.2
    | some nid =>
      have hs2 : (takeSplit (c.length_rooftopshop.map (fun i => (⟨i.id, i.quantity⟩ : SplitItem))
          ++ c.daktrim_koppelstukje_rooftopshop.map (fun i => (⟨i.id, i.quantity⟩ : SplitItem)))
          env').1.1 = some nid := by
        rw [← hsp.1]
        exact hs
      rw [hs2]
      simp only
      have hca := callAddTag_agree order_id hsp.2
      have hfa := takeFetch_agree hca
      cases ht : (callAddTag order_id (takeSplit
          (c.length_rooftopshop.map (fun i => (⟨i.id, i.quantity⟩ : SplitItem))
            ++ c.daktrim_koppelstukje_rooftopshop.map (fun i => (⟨i.id, i.quantity⟩ : SplitItem)))
          env).2).1 <;>
        cases ht' : (callAddTag order_id (takeSplit
            (c.length_rooftopshop.map (fun i => (⟨i.id, i.quantity⟩ : SplitItem))
              ++ c.daktrim_koppelstukje_rooftopshop.map (fun i => (⟨i.id, i.quantity⟩ : SplitItem)))
            env').2).1 <;>
          simp only [ht, ht', Bool.false_eq_true, if_true, if_false] <;>
        (cases hf : (takeFetch (callAddTag order_id (takeSplit
            (c.length_rooftopshop.map (fun i => (⟨i.id, i.quantity⟩ : SplitItem))
              ++ c.daktrim_koppelstukje_rooftopshop.map (fun i => (⟨i.id, i.quantity⟩ : SplitItem)))
            env).2).2).1 with
         | none =>
           have hf2 : (takeFetch (callAddTag order_id (takeSplit
               (c.length_rooftopshop.map (fun i => (⟨i.id, i.quantity⟩ : SplitItem))
                 ++ c.daktrim_koppelstukje_rooftopshop.map (fun i => (⟨i.id, i.quantity⟩ : SplitItem)))
               env').2).2).1 = none := by
             rw [← hfa.1]
             exact hf
           rw [hf2]
           simp only
           exact ⟨⟨rfl, rfl, by simp [hr.2.2, hsp.1]⟩, hfa.2⟩
         | some d =>
           have hf2 : (takeFetch (callAddTag order_id (takeSplit
               (c.length_rooftopshop.map (fun i => (⟨i.id, i.quantity⟩ : SplitItem))
                 ++ c.daktrim_koppelstukje_rooftopshop.map (fun i => (⟨i.id, i.quantity⟩ : SplitItem)))
               env').2).2).1 = some d := by
             rw [← hfa.1]
             exact hf
           rw [hf2]
           simp only
           exact branchAStep2_agree order_id c (some d)
             ⟨hr.1, hr.2.1, by simp [hr.2.2, hsp.1]⟩ hfa.2)

theorem branchB_agree (order_id : Option String) (c : Categories)
    {res res' : Results} {env env' : Env}
    (hr : ResultsAgree res res') (he : EnvAgree env env') :
    ResultsAgree (branchB order_id c res env).1 (branchB order_id c res' env').1
    ∧ EnvAgree (branchB order_id c res env).2 (branchB order_id c res' env').2 := by
  cases ha : allNonLengthAtRooftopshop c with
  | true =>
    rw [branchB, branchB]
    simp only [ha, if_true]
    exact ⟨hr, he⟩
  | false =>
    rw [branchB, branchB]
    simp only [ha, Bool.false_eq_true, if_false]
    have hfa := takeFetch_agree he
    cases hf : (takeFetch env).1 with
    | none =>
      have hf2 : (takeFetch env').1 = none := by
        rw [← hfa.1]
        exact hf
      rw [hf2]
      simp only
      exact ⟨⟨rfl, rfl, hr.2.2⟩, hfa.2⟩
    | some d =>
      have hf2 : (takeFetch env').1 = some d := by
        rw [← hfa.1]
        exact hf
      rw [hf2]
      simp only
      exact processGroupsB_agree order_id _ hr hfa.2

theorem preStepDaktrim_agree (oid : Option String) (c : Categories)
    {res res' : Results} {env env' : Env}
    (hr : ResultsAgree res res') (he : EnvAgree env env') :
    ResultsAgree (preStepDaktrim oid c res env).1 (preStepDaktrim oid c res' env').1
    ∧ EnvAgree (preStepDaktrim oid c res env).2 (preStepDaktrim oid c res' env').2 := by
  by_cases h1 : (hasLengthItems c = true ∧ c.length_external.length = 0)
  · rw [preStepDaktrim, preStepDaktrim, if_pos h1, if_pos h1]
    simp only
    refine ⟨?_, callAddTag_agree oid he⟩
    cases ht : (callAddTag oid env).1 <;> cases ht' : (callAddTag oid env').1 <;>
      simp only [ht, ht', Bool.false_eq_true, if_true, if_false] <;>
        exact ⟨hr.1, hr.2.1, hr.2.2⟩
  · rw [preStepDaktrim, preStepDaktrim, if_neg h1, if_neg h1]
    exact ⟨hr, he⟩

theorem preStepExternal_agree (oid : Option String) (c : Categories)
    {res res' : Results} {env env' : Env}
    (hr : ResultsAgree res res') (he : EnvAgree env env') :
    ResultsAgree (preStepExternal oid c res env).1 (preStepExternal oid c res' env').1
    ∧ EnvAgree (preStepExternal oid c res env).2 (preStepExternal oid c res' env').2 := by
  by_cases h2 : (0 < c.length_external.length ∨ 0 < c.non_length_external.length)
  · rw [preStepExternal, preStepExternal, if_pos h2, if_pos h2]
    cases hc : collectExternalLocations c with
    | nil =>
      simp only [hc]
      exact ⟨hr, he⟩
    | cons loc t =>
      cases t with
      | nil =>
        simp only [hc]
        by_cases h3 : (c.length_rooftopshop.length + c.non_length_rooftopshop.length
            + c.daktrim_koppelstukje_rooftopshop.length = 0)
        · rw [if_pos h3, if_pos h3]
          simp only
          refine ⟨?_, callAddTag_agree oid he⟩
          cases ht : (callAddTag oid env).1 <;> cases ht' : (callAddTag oid env').1 <;>
            simp only [ht, ht', Bool.false_eq_true, if_true, if_false] <;>
              exact ⟨hr.1, hr.2.1, hr.2.2⟩
        · rw [if_neg h3, if_neg h3]
          exact ⟨hr, he⟩
      | cons b t2 =>
        simp only [hc]
        exact ⟨hr, he⟩
  · rw [preStepExternal, preStepExternal, if_neg h2, if_neg h2]
    exact ⟨hr, he⟩

theorem preStep_agree (oid : Option String) (c : Categories)
    {res res' : Results} {env env' : Env}
    (hr : ResultsAgree res res') (he : EnvAgree env env') :
    ResultsAgree (preStep oid c res env).1 (preStep oid c res' env').1
    ∧ EnvAgree (preStep oid c res env).2 (preStep oid c res' env').2 := by
  have h1 := preStepDaktrim_agree oid c hr he
  exact preStepExternal_agree oid c h1.1 h1.2

/-! ## Orchestrator: a failed tag call only means the tag is missing -/

theorem takeSplit_tagResponses (items : List SplitItem) (env : Env) :
    (takeSplit items env).2.tagResponses = env.tagResponses := by
  cases h : env.splitResponses <;> simp [takeSplit, h]

theorem callAddTag_false (oid : Option String) (env : Env)
    (h : ∀ b ∈ env.tagResponses, b = false) :
    (callAddTag oid env).1 = false
    ∧ ∀ b ∈ (callAddTag oid env).2.tagResponses, b = false := by
  cases oid with
  | none => exact ⟨by trivial, h⟩
  | some s =>
    by_cases hs : s = ""
    · rw [callAddTag, if_pos hs]
      exact ⟨by trivial, h⟩
    · rw [callAddTag, if_neg hs]
      cases htr : env.tagResponses with
      | nil =>
        rw [takeTag, htr]
        exact ⟨by trivial, h⟩
      | cons b t =>
        have hb : b = false := h b (by rw [htr]; exact List.mem_cons_self b t)
        rw [takeTag, htr]
        simp only
        refine ⟨hb, ?_⟩
        intro x hx
        apply h
        rw [htr]
        exact List.mem_cons_of_mem b hx

theorem processGroupsA_tags_noop (order_id : Option String) :
    ∀ (groups : LocationGroups) (res : Results) (env : Env),
      (∀ b ∈ env.tagResponses, b = false) →
      (processGroupsA order_id groups res env).1.tags_added = res.tags_added
      ∧ (∀ b ∈ (processGroupsA order_id groups res env).2.tagResponses, b = false) := by
  intro groups
  induction groups with
  | nil =>
    intro res env hAF
    exact ⟨by simp [processGroupsA], by simpa [processGroupsA] using hAF⟩
  | cons g rest ih =>
    obtain ⟨loc, items⟩ := g
    intro res env hAF
    cases hemp : items.isEmpty with
    | true =>
      have h := ih res env hAF
      exact ⟨by simpa [processGroupsA, hemp] using h.1,
             by simpa [processGroupsA, hemp] using h.2⟩
    | false =>
      rw [processGroupsA]
      simp only [hemp, Bool.false_eq_true, if_false]
      have h1 : ∀ b ∈ (takeSplit items env).2.tagResponses, b = false := by
        rw [takeSplit_tagResponses]
        exact hAF
      cases hs : (takeSplit items env).1.1 with
      | none =>
        exact ⟨by simp, by simpa [takeSplit_tagResponses] using hAF⟩
      | some nid =>
        have hct := callAddTag_false order_id _ h1
        simp only [hct.1, Bool.false_eq_true, if_false]
        have h2 : ∀ b ∈ (takeFetch (callAddTag order_id
            (takeSplit items env).2).2).2.tagResponses, b = false := by
          rw [takeFetch_tagResponses]
          exact hct.2
        cases hf : (takeFetch (callAddTag order_id (takeSplit items env).2).2).1 with
        | none =>
          exact ⟨by simp, h2⟩
        | some d =>
          refine ⟨?_, ?_⟩
          · exact (ih _ _ h2).1
          · exact (ih _ _ h2).2

theorem processGroupsB_tags_noop (order_id : Option String) :
    ∀ (groups : LocationGroups) (res : Results) (env : Env),
      (∀ b ∈ env.tagResponses, b = false) →
      (processGroupsB order_id groups res env).1.tags_added = res.tags_added
      ∧ (∀ b ∈ (processGroupsB order_id groups res env).2.tagResponses, b = false) := by
  intro groups
  induction groups with
  | nil =>
    intro res env hAF
    exact ⟨by simp [processGroupsB], by simpa [processGroupsB] using hAF⟩
  | cons g rest ih =>
    obtain ⟨loc, items⟩ := g
    intro res env hAF
    cases hemp : items.isEmpty with
    | true =>
      have h := ih res env hAF
      exact ⟨by simpa [processGroupsB, hemp] using h.1,
             by simpa [processGroupsB, hemp] using h.2⟩
    | false =>
      rw [processGroupsB]
      simp only [hemp, Bool.false_eq_true, if_false]
      have h1 : ∀ b ∈ (takeSplit items env).2.tagResponses, b = false := by
        rw [takeSplit_tagResponses]
        exact hAF
      cases hs : (takeSplit items env).1.1 with
      | none =>
        exact ⟨by simp, by simpa [takeSplit_tagResponses] using hAF⟩
      | some nid =>
        have hct := callAddTag_false order_id _ h1
        simp only [hct.1, Bool.false_eq_true, if_false]
        have h2 : ∀ b ∈ (takeFetch (callAddTag order_id
            (takeSplit items env).2).2).2.tagResponses, b = false := by
          rw [takeFetch_tagResponses]
          exact hct.2
        cases hf : (takeFetch (callAddTag order_id (takeSplit items env).2).2).1 with
        | none =>
          exact ⟨by simp, h2⟩
        | some d =>
          refine ⟨?_, ?_⟩
          · exact (ih _ _ h2).1
          · exact (ih _ _ h2).2

theorem branchAStep2_tags_noop (order_id : Option String) (c : Categories)
    (fd0 : Option OrderDetails) (res : Results) (env : Env)
    (hAF : ∀ b ∈ env.tagResponses, b = false) :
    (branchAStep2 order_id c fd0 res env).1.tags_added = res.tags_added
    ∧ (∀ b ∈ (branchAStep2 order_id c fd0 res env).2.tagResponses, b = false) := by
  cases fd0 with
  | some d =>
    cases ha : allItemsAtRooftopshop c with
    | true =>
      rw [branchAStep2]
      simp only [ha, if_true]
      exact ⟨by trivial, hAF⟩
    | false =>
      rw [branchAStep2]
      simp only [ha, Bool.false_eq_true, if_false]
      exact processGroupsA_tags_noop order_id _ res env hAF
  | none =>
    cases ha : allItemsAtRooftopshop c with
    | true =>
      rw [branchAStep2]
      simp only [ha, if_true]
      exact ⟨by trivial, hAF⟩
    | false =>
      rw [branchAStep2]
      simp only [ha, Bool.false_eq_true, if_false]
      have h1 : ∀ b ∈ (takeFetch env).2.tagResponses, b = false := by
        rw [takeFetch_tagResponses]
        exact hAF
      cases hf : (takeFetch env).1 with
      | none => exact ⟨by simp, h1⟩
      | some d => exact processGroupsA_tags_noop order_id _ res _ h1

theorem branchA_tags_noop (order_id : Option String) (c : Categories)
    (res : Results) (env : Env)
    (hAF : ∀ b ∈ env.tagResponses, b = false) :
    (branchA order_id c res env).1.tags_added = res.tags_added
    ∧ (∀ b ∈ (branchA order_id c res env).2.tagResponses, b = false) := by
  cases hemp : c.length_rooftopshop.isEmpty with
  | true =>
    have h := branchAStep2_tags_noop order_id c none res env hAF
    exact ⟨by simpa [branchA, hemp] using h.1, by simpa [branchA, hemp] using h.2⟩
  | false =>
    rw [branchA]
    simp only [hemp, Bool.false_eq_true, if_false]
    have h1 : ∀ b ∈ (takeSplit (c.length_rooftopshop.map
        (fun i => (⟨i.id, i.quantity⟩ : SplitItem))
        ++ c.daktrim_koppelstukje_rooftopshop.map (fun i => (⟨i.id, i.quantity⟩ : SplitItem)))
        env).2.tagResponses, b = false := by
      rw [takeSplit_tagResponses]
      exact hAF
    cases hs : (takeSplit (c.length_rooftopshop.map (fun i => (⟨i.id, i.quantity⟩ : SplitItem))
        ++ c.daktrim_koppelstukje_rooftopshop.map (fun i => (⟨i.id, i.quantity⟩ : SplitItem)))
        env).1.1 with
    | none =>
      exact ⟨by simp, by simpa [takeSplit_tagResponses] using hAF⟩
    | some nid =>
      have hct := callAddTag_false order_id _ h1
      simp only [hct.1, Bool.false_eq_true, if_false]
      have h2 : ∀ b ∈ (takeFetch (callAddTag order_id (takeSplit
          (c.length_rooftopshop.map (fun i => (⟨i.id, i.quantity⟩ : SplitItem))
            ++ c.daktrim_koppelstukje_rooftopshop.map (fun i => (⟨i.id, i.quantity⟩ : SplitItem)))
          env).2).2).2.tagResponses, b = false := by
        rw [takeFetch_tagResponses]
        exact hct.2
      cases hf : (takeFetch (callAddTag order_id (takeSplit
          (c.length_rooftopshop.map (fun i => (⟨i.id, i.quantity⟩ : SplitItem))
            ++ c.daktrim_koppelstukje_rooftopshop.map (fun i => (⟨i.id, i.quantity⟩ : SplitItem)))
          env).2).2).1 with
      | none => exact ⟨by simp, h2⟩
      | some d =>
        refine ⟨?_, ?_⟩
        · exact (branchAStep2_tags_noop order_id c (some d) _ _ h2).1
        · exact (branchAStep2_tags_noop order_id c (some d) _ _ h2).2

theorem branchB_tags_noop (order_id : Option String) (c : Categories)
    (res : Results) (env : Env)
    (hAF : ∀ b ∈ env.tagResponses, b = false) :
    (branchB order_id c res env).1.tags_added = res.tags_added
    ∧ (∀ b ∈ (branchB order_id c res env).2.tagResponses, b = false) := by
  cases ha : allNonLengthAtRooftopshop c with
  | true =>
    rw [branchB]
    simp only [ha, if_true]
    exact ⟨by trivial, hAF⟩
  | false =>
    rw [branchB]
    simp only [ha, Bool.false_eq_true, if_false]
    have h1 : ∀ b ∈ (takeFetch env).2.tagResponses, b = false := by
      rw [takeFetch_tagResponses]
      exact hAF
    cases hf : (takeFetch env).1 with
    | none => exact ⟨by simp, h1⟩
    | some d => exact processGroupsB_tags_noop order_id _ res _ h1

theorem preStepDaktrim_tags_noop (oid : Option String) (c : Categories)
    (res : Results) (env : Env)
    (hAF : ∀ b ∈ env.tagResponses, b = false) :
    (preStepDaktrim oid c res env).1.tags_added = res.tags_added
    ∧ (∀ b ∈ (preStepDaktrim oid c res env).2.tagResponses, b = false) := by
  by_cases h1 : (hasLengthItems c = true ∧ c.length_external.length = 0)
  · rw [preStepDaktrim, if_pos h1]
    have hct := callAddTag_false oid env hAF
    simp only [hct.1, Bool.false_eq_true, if_false]
    exact ⟨by trivial, hct.2⟩
  · rw [preStepDaktrim, if_neg h1]
    exact ⟨by trivial, hAF⟩

theorem preStepExternal_tags_noop (oid : Option String) (c : Categories)
    (res : Results) (env : Env)
    (hAF : ∀ b ∈ env.tagResponses, b = false) :
    (preStepExternal oid c res env).1.tags_added = res.tags_added
    ∧ (∀ b ∈ (preStepExternal oid c res env).2.tagResponses, b = false) := by
  by_cases h2 : (0 < c.length_external.length ∨ 0 < c.non_length_external.length)
  · rw [preStepExternal, if_pos h2]
    cases hc : collectExternalLocations c with
    | nil =>
      simp only [hc]
      exact ⟨by trivial, hAF⟩
    | cons loc t =>
      cases t with
      | nil =>
        simp only [hc]
        by_cases h3 : (c.length_rooftopshop.length + c.non_length_rooftopshop.length
            + c.daktrim_koppelstukje_rooftopshop.length = 0)
        · rw [if_pos h3]
          have hct := callAddTag_false oid env hAF
          simp only [hct.1, Bool.false_eq_true, if_false]
          exact ⟨by trivial, hct.2⟩
        · rw [if_neg h3]
          exact ⟨by trivial, hAF⟩
      | cons b t2 =>
        simp only [hc]
        exact ⟨by trivial, hAF⟩
  · rw [preStepExternal, if_neg h2]
    exact ⟨by trivial, hAF⟩

/-- C8: tagging is best-effort.  First, the outcome of every AddTag call is
invisible to the rest of the run: replacing the whole tag-response stream
changes neither `success`, `error`, `splits`, nor which fetches and split
mutations are issued (the remaining fetch/split streams and the split-call
log are identical).  Second, when every tag call fails, the run's
`tagsAdded` is empty — the only observable effect of failed tags. -/
theorem c8_tagging_best_effort :
    (∀ (order_id : Option String) (c : Categories) (env : Env) (tags2 : List Bool),
      ResultsAgree
        (process_fulfillment_according_to_decision_tree order_id c env).1
        (process_fulfillment_according_to_decision_tree order_id c
          { env with tagResponses := tags2 }).1
      ∧ EnvAgree
        (process_fulfillment_according_to_decision_tree order_id c env).2
        (process_fulfillment_according_to_decision_tree order_id c
          { env with tagResponses := tags2 }).2)
    ∧ (∀ (order_id : Option String) (c : Categories) (env : Env),
        (∀ b ∈ env.tagResponses, b = false) →
        (process_fulfillment_according_to_decision_tree order_id c env).1.tags_added = []) := by
  constructor
  · intro order_id c env tags2
    simp only [process_fulfillment_according_to_decision_tree]
    have hp := @preStep_agree order_id c ⟨true, [], [], none⟩ ⟨true, [], [], none⟩
      env { env with tagResponses := tags2 } ⟨rfl, rfl, rfl⟩ ⟨rfl, rfl, rfl⟩
    cases hb : hasLengthItems c with
    | true =>
      simp only [hb, if_true]
      exact branchA_agree order_id c hp.1 hp.2
    | false =>
      simp only [hb, Bool.false_eq_true, if_false]
      exact branchB_agree order_id c hp.1 hp.2
  · intro order_id c env hAF
    simp only [process_fulfillment_according_to_decision_tree]
    have hp1 := preStepDaktrim_tags_noop order_id c ⟨true, [], [], none⟩ env hAF
    have hp2 := preStepExternal_tags_noop order_id c
      (preStepDaktrim order_id c ⟨true, [], [], none⟩ env).1
      (preStepDaktrim order_id c ⟨true, [], [], none⟩ env).2 hp1.2
    have hpre : (preStep order_id c ⟨true, [], [], none⟩ env).1.tags_added = [] := by
      rw [preStep]
      rw [hp2.1, hp1.1]
    have hpre2 : ∀ b ∈ (preStep order_id c ⟨true, [], [], none⟩ env).2.tagResponses,
        b = false := by
      rw [preStep]
      exact hp2.2
    cases hb : hasLengthItems c with
    | true =>
      simp only [hb, if_true]
      have h := branchA_tags_noop order_id c
        (preStep order_id c ⟨true, [], [], none⟩ env).1
        (preStep order_id c ⟨true, [], [], none⟩ env).2 hpre2
      rw [h.1, hpre]
    | false =>
      simp only [hb, Bool.false_eq_true, if_false]
      have h := branchB_tags_noop order_id c
        (preStep order_id c ⟨true, [], [], none⟩ env).1
        (preStep order_id c ⟨true, [], [], none⟩ env).2 hpre2
      rw [h.1, hpre]

/-- Witness for C8: on the concrete C10 order, replacing both successful tag
responses by failures leaves success, error, splits, and the split-call log
unchanged, and empties `tagsAdded`. -/
theorem c8_tagging_best_effort_witness :
    (ResultsAgree
      (process_fulfillment_according_to_decision_tree (some "gid:o1")
        (categorize_items orderC10w) envC10w).1
      (process_fulfillment_according_to_decision_tree (some "gid:o1")
        (categorize_items orderC10w) { envC10w with tagResponses := [false, false] }).1
     ∧ EnvAgree
      (process_fulfillment_according_to_decision_tree (some "gid:o1")
        (categorize_items orderC10w) envC10w).2
      (process_fulfillment_according_to_decision_tree (some "gid:o1")
        (categorize_items orderC10w) { envC10w with tagResponses := [false, false] }).2)
    ∧ (process_fulfillment_according_to_decision_tree (some "gid:o1")
        (categorize_items orderC10w)
        { envC10w with tagResponses := [false, false] }).1.tags_added = [] := by
  constructor
  · exact c8_tagging_best_effort.1 (some "gid:o1") (categorize_items orderC10w) envC10w
      [false, false]
  · exact c8_tagging_best_effort.2 (some "gid:o1") (categorize_items orderC10w)
      { envC10w with tagResponses := [false, false] }
      (by intro b hb; simpa [envC10w] using hb)

end OrderSplit
